import Mathlib

/-!
Shallow embedding of `src/moonlight-common-c/src/Connection.c`, the session
lifecycle controller of the moonlight streaming client, together with proofs
about its staged start/stop/interrupt state machine.

The C file drives a fixed sequence of eleven connection stages, reports
progress through caller callbacks, and on failure (or an explicit
`LiStopConnection`) unwinds exactly the completed stages in reverse order.
External collaborators (platform init, name resolution, RTSP handshake,
the four stream subsystems) live in other files of the repository and are
modelled here by an oracle of result codes.  Caller-visible effects
(callbacks, the synthetic mouse wiggle, collaborator teardown invocations)
are recorded in an event trace; a few internal transitions (the flag reset,
the auto streaming-mode resolution, the arrival of an interrupt request)
are recorded as instrumentation events so that ordering claims can be
stated, and are filtered out of the caller-visible views.
-/

namespace Moonlight

/-! ### Stage ordinals (`STAGE_*` of Limelight.h, fixed by use in Connection.c) -/

def STAGE_NONE : Nat := 0
def STAGE_PLATFORM_INIT : Nat := 1
def STAGE_NAME_RESOLUTION : Nat := 2
def STAGE_RTSP_HANDSHAKE : Nat := 3
def STAGE_CONTROL_STREAM_INIT : Nat := 4
def STAGE_VIDEO_STREAM_INIT : Nat := 5
def STAGE_AUDIO_STREAM_INIT : Nat := 6
def STAGE_INPUT_STREAM_INIT : Nat := 7
def STAGE_CONTROL_STREAM_START : Nat := 8
def STAGE_VIDEO_STREAM_START : Nat := 9
def STAGE_AUDIO_STREAM_START : Nat := 10
def STAGE_INPUT_STREAM_START : Nat := 11
def STAGE_MAX : Nat := 12

/-! ### Streaming mode hint values (`STREAM_CFG_*` of Limelight.h) -/

def STREAM_CFG_LOCAL : Nat := 0
def STREAM_CFG_REMOTE : Nat := 1
def STREAM_CFG_AUTO : Nat := 2

/-- The `stageNames` table of Connection.c (one label per stage ordinal). -/
def stageNames : List String :=
  ["none",
   "platform initialization",
   "name resolution",
   "RTSP handshake",
   "control stream initialization",
   "video stream initialization",
   "audio stream initialization",
   "input stream initialization",
   "control stream establishment",
   "video stream establishment",
   "audio stream establishment",
   "input stream establishment"]

/-- Faults a C execution can hit; an out-of-bounds array read is undefined
behavior, an `LC_ASSERT` failure is a debug-build abort.  `LiGetStageName`
contains no assertion, so its only possible fault is the unchecked read. -/
inductive RuntimeFault
  | outOfBoundsRead
  | assertionFailure
deriving DecidableEq

/-- Embedding of `LiGetStageName`: `return stageNames[stage];`.  The C code
performs an unchecked array index, so an out-of-range stage is an
out-of-bounds read (undefined behavior), not an assertion failure. -/
def LiGetStageName (stage : Nat) : Except RuntimeFault String :=
  match stageNames[stage]? with
  | some name => Except.ok name
  | none => Except.error RuntimeFault.outOfBoundsRead

/-! ### Data model -/

/-- The fields of `STREAM_CONFIGURATION` that Connection.c reads or writes
(the remaining fields are copied wholesale and never touched there). -/
structure STREAM_CONFIGURATION where
  packetSize : Int
  streamingRemotely : Nat
  bitrate : Int
deriving DecidableEq

/-- Modelled from the spec: `extractVersionQuadFromString` (implemented in a
repository file outside the controller) parses the server app-version string
into a four-component form and fails on malformed input.  The parse result is
carried here directly: `none` represents a malformed version string. -/
structure SERVER_INFORMATION where
  address : String
  serverInfoAppVersion : Option (Int × Int × Int × Int)
deriving DecidableEq

/-- The file-level mutable state of Connection.c (the `static` stage and
termination bookkeeping plus the common globals it owns). -/
structure ConnState where
  stage : Nat
  alreadyTerminated : Bool
  connectionInterrupted : Bool
  remoteAddrString : Option String
  streamConfig : STREAM_CONFIGURATION
  originalVideoBitrate : Int
  appVersionQuad : Option (Int × Int × Int × Int)
  negotiatedVideoFormat : Int
  terminationCallbackErrorCode : Int
deriving DecidableEq

/-- The collaborator teardown operations invoked by `LiStopConnection`. -/
inductive TeardownOp
  | stopInputStream
  | stopAudioStream
  | stopVideoStream
  | stopControlStream
  | destroyInputStream
  | destroyAudioStream
  | destroyVideoStream
  | destroyControlStream
  | cleanupPlatform
deriving DecidableEq

/-- Observable events of one execution.  `stageStarting`, `stageComplete`,
`stageFailed`, `connectionStarted` and `connectionTerminated` are the caller
callbacks; `mouseMove` and `sleepMs` are the display-wake nudge;
`teardown` records a collaborator stop/destroy/cleanup invocation.
`flagsReset`, `modeResolved` and `interruptRequested` are instrumentation
markers for internal transitions (the flag reset at the top of the stage
sequence, the auto streaming-mode resolution, and the arrival of an
interrupt request) and are not caller-visible. -/
inductive Event
  | stageStarting (s : Nat)
  | stageComplete (s : Nat)
  | stageFailed (s : Nat) (err : Int)
  | connectionStarted
  | connectionTerminated (err : Int)
  | mouseMove (dx dy : Int)
  | sleepMs (ms : Nat)
  | teardown (op : TeardownOp)
  | flagsReset
  | modeResolved (mode : Nat)
  | interruptRequested
deriving DecidableEq

/-! ### Interrupt and stop -/

/-- Embedding of `LiInterruptConnection`: set the global interrupted flag. -/
def LiInterruptConnection (st : ConnState) : ConnState :=
  { st with connectionInterrupted := true }

/-- One rung of the reverse-unwind if-ladder of `LiStopConnection`: if the
current stage equals `sVal`, run the matching teardown operation (when the
stage has one) and decrement the stage. -/
def stopStep (sVal : Nat) (op : Option TeardownOp) :
    ConnState × List Event → ConnState × List Event
  | (st, es) =>
    if st.stage = sVal then
      ({ st with stage := st.stage - 1 },
       es ++ (match op with | some o => [Event.teardown o] | none => []))
    else (st, es)

/-- Embedding of `LiStopConnection`: first set the terminated flag (disabling
termination callbacks), then set the interrupted flag, then undo the step at
the current stage and every step before it, in reverse order, and finally
free the remote address string.  The C code ends with
`LC_ASSERT(stage == STAGE_NONE)`; the corresponding fact is proved below for
every reachable stage. -/
def LiStopConnection (st0 : ConnState) : ConnState × List Event :=
  let st := LiInterruptConnection { st0 with alreadyTerminated := true }
  let r := stopStep STAGE_INPUT_STREAM_START (some TeardownOp.stopInputStream) (st, [])
  let r := stopStep STAGE_AUDIO_STREAM_START (some TeardownOp.stopAudioStream) r
  let r := stopStep STAGE_VIDEO_STREAM_START (some TeardownOp.stopVideoStream) r
  let r := stopStep STAGE_CONTROL_STREAM_START (some TeardownOp.stopControlStream) r
  let r := stopStep STAGE_INPUT_STREAM_INIT (some TeardownOp.destroyInputStream) r
  let r := stopStep STAGE_AUDIO_STREAM_INIT (some TeardownOp.destroyAudioStream) r
  let r := stopStep STAGE_VIDEO_STREAM_INIT (some TeardownOp.destroyVideoStream) r
  let r := stopStep STAGE_CONTROL_STREAM_INIT (some TeardownOp.destroyControlStream) r
  let r := stopStep STAGE_RTSP_HANDSHAKE none r
  let r := stopStep STAGE_NAME_RESOLUTION none r
  let r := stopStep STAGE_PLATFORM_INIT (some TeardownOp.cleanupPlatform) r
  ({ r.1 with remoteAddrString := none }, r.2)

/-- Embedding of the termination callback shim `ClInternalConnectionTerminated`:
a no-op if the terminated flag is already set or interruption was requested;
otherwise record the error code, set the terminated flag, and dispatch the
caller's original termination callback on a fire-and-forget worker thread
(the dispatch is the `connectionTerminated` event; thread creation by the
platform collaborator is modelled as succeeding). -/
def ClInternalConnectionTerminated (errorCode : Int) (st : ConnState) :
    ConnState × List Event :=
  if st.alreadyTerminated || st.connectionInterrupted then (st, [])
  else
    ({ st with terminationCallbackErrorCode := errorCode, alreadyTerminated := true },
     [Event.connectionTerminated errorCode])

/-- An operation arriving at the controller after (or between) sessions: a
termination notification from a collaborator thread, a caller `stop`, or a
caller `interrupt`. -/
inductive SessionOp
  | termNotify (errorCode : Int)
  | stopConn
  | interruptReq
deriving DecidableEq

/-- Run a sequence of session operations from a given state, collecting the
events of each. -/
def runOps : ConnState → List SessionOp → ConnState × List Event
  | st, [] => (st, [])
  | st, op :: rest =>
    let p :=
      match op with
      | SessionOp.termNotify code => ClInternalConnectionTerminated code st
      | SessionOp.stopConn => LiStopConnection st
      | SessionOp.interruptReq => (LiInterruptConnection st, [])
    let q := runOps p.1 rest
    (q.1, p.2 ++ q.2)

/-! ### Start -/

/-- Packet size rounding of `LiStartConnection`:
`StreamConfig.packetSize -= StreamConfig.packetSize % 16;` (C `%` is
truncated remainder, `Int.tmod`). -/
def roundPacketSize (p : Int) : Int := p - Int.tmod p 16

/-- Modelled from the spec: the error code a collaborator call reports when it
observes the Interrupt Signal (the collaborators' cancellation paths live
outside this file; the spec only requires the code to be nonzero). -/
def interruptedErrorCode : Int := -2

/-- Arrival of an asynchronous `LiInterruptConnection` from another thread
just before the atomic point numbered `k` of the stage sequence (points
`0`–`10` precede the eleven stage blocks, point `11` follows the last one).
`intAt = none` means no interrupt is requested during this `start`. -/
def maybeInterrupt (intAt : Option Nat) (k : Nat) (st : ConnState) (es : List Event) :
    ConnState × List Event :=
  if intAt = some k then (LiInterruptConnection st, es ++ [Event.interruptRequested])
  else (st, es)

/-- Run a list of stage blocks, each `(stageId, collaborator result)`.  A
block with result `none` is one of the infallible init calls
(`initializeVideoStream`, `initializeAudioStream`, `initializeInputStream`,
which return `void` in C); a block with result `some e0` calls a fallible
collaborator.  Each block mirrors the C pattern: invoke `stageStarting`,
call the collaborator, and on success increment `stage` and invoke
`stageComplete`, otherwise invoke `stageFailed` and abort.  Modelled from
the spec: a fallible collaborator consults the Interrupt Signal and reports
a cancellation error instead of its oracle result when the signal is set
(Connection.c itself never reads the flag during start). -/
def runStages (intAt : Option Nat) :
    Nat → List (Nat × Option Int) → ConnState → List Event →
    ConnState × List Event × Option Int
  | _, [], st, es => (st, es, none)
  | k, (sid, none) :: rest, st, es =>
    let p := maybeInterrupt intAt k st es
    runStages intAt (k + 1) rest { p.1 with stage := p.1.stage + 1 }
      (p.2 ++ [Event.stageStarting sid] ++ [Event.stageComplete sid])
  | k, (sid, some e0) :: rest, st, es =>
    let p := maybeInterrupt intAt k st es
    let e := if p.1.connectionInterrupted then interruptedErrorCode else e0
    if e = 0 then
      runStages intAt (k + 1) rest { p.1 with stage := p.1.stage + 1 }
        (p.2 ++ [Event.stageStarting sid] ++ [Event.stageComplete sid])
    else
      (p.1, p.2 ++ [Event.stageStarting sid] ++ [Event.stageFailed sid e], some e)

/-- Collaborator results for one execution of `LiStartConnection` (the
collaborators live in other repository files; each is summarized by the
result Connection.c branches on). -/
structure CONNECTION_ORACLE where
  initializePlatform : Int
  resolveHostName : Int
  isPrivateNetworkAddress : Bool
  performRtspHandshake : Int
  initializeControlStream : Int
  startControlStream : Int
  startVideoStream : Int
  startAudioStream : Int
  startInputStream : Int
deriving DecidableEq

/-- The stage blocks executed before the auto streaming-mode resolution:
platform initialization and name resolution. -/
def stageTable1 (oracle : CONNECTION_ORACLE) : List (Nat × Option Int) :=
  [(STAGE_PLATFORM_INIT, some oracle.initializePlatform),
   (STAGE_NAME_RESOLUTION, some oracle.resolveHostName)]

/-- The stage blocks executed after the auto streaming-mode resolution:
RTSP handshake, the four stream inits (video/audio/input init are
infallible), and the four stream starts. -/
def stageTable2 (oracle : CONNECTION_ORACLE) : List (Nat × Option Int) :=
  [(STAGE_RTSP_HANDSHAKE, some oracle.performRtspHandshake),
   (STAGE_CONTROL_STREAM_INIT, some oracle.initializeControlStream),
   (STAGE_VIDEO_STREAM_INIT, none),
   (STAGE_AUDIO_STREAM_INIT, none),
   (STAGE_INPUT_STREAM_INIT, none),
   (STAGE_CONTROL_STREAM_START, some oracle.startControlStream),
   (STAGE_VIDEO_STREAM_START, some oracle.startVideoStream),
   (STAGE_AUDIO_STREAM_START, some oracle.startAudioStream),
   (STAGE_INPUT_STREAM_START, some oracle.startInputStream)]

/-- The `STREAM_CFG_AUTO` resolution of Connection.c, run right after name
resolution succeeds: resolve the hint to local for a private resolved
address and to remote otherwise, capping the packet size at 1024 in the
remote case.  The resolved value is recorded as a `modeResolved`
instrumentation event. -/
def autoAdjust (isPrivate : Bool) (st : ConnState) : ConnState × List Event :=
  if st.streamConfig.streamingRemotely = STREAM_CFG_AUTO then
    if isPrivate then
      ({ st with streamConfig :=
           { st.streamConfig with streamingRemotely := STREAM_CFG_LOCAL } },
       [Event.modeResolved STREAM_CFG_LOCAL])
    else
      let cfg := { st.streamConfig with streamingRemotely := STREAM_CFG_REMOTE }
      let cfg := if 1024 < cfg.packetSize then { cfg with packetSize := 1024 } else cfg
      ({ st with streamConfig := cfg }, [Event.modeResolved STREAM_CFG_REMOTE])
  else (st, [])

/-- Embedding of `LiStartConnection`.  In source order: clear the negotiated
video format, copy the stream configuration, record the original bitrate,
duplicate the server address string, round the packet size down to a
multiple of 16 and fail with `-1` if the result is zero, parse the app
version and fail with `-1` if malformed, reset the terminated/interrupted
flags (the `flagsReset` event), run the eleven stage blocks with the auto
streaming-mode resolution between name resolution and the RTSP handshake,
and on full success wiggle the mouse and invoke `connectionStarted`.  Any
nonzero error reaches the `Cleanup` label, which invokes
`LiStopConnection` before returning the error. -/
def LiStartConnection (st0 : ConnState) (serverInfo : SERVER_INFORMATION)
    (streamConfig : STREAM_CONFIGURATION) (oracle : CONNECTION_ORACLE)
    (intAt : Option Nat) : ConnState × List Event × Int :=
  let st := { st0 with
    negotiatedVideoFormat := 0,
    streamConfig :=
      { streamConfig with packetSize := roundPacketSize streamConfig.packetSize },
    originalVideoBitrate := streamConfig.bitrate,
    remoteAddrString := some serverInfo.address }
  if roundPacketSize streamConfig.packetSize = 0 then
    let r := LiStopConnection st
    (r.1, r.2, -1)
  else
    match serverInfo.serverInfoAppVersion with
    | none =>
      let r := LiStopConnection st
      (r.1, r.2, -1)
    | some quad =>
      let st := { st with appVersionQuad := some quad,
                          alreadyTerminated := false, connectionInterrupted := false }
      match runStages intAt 0 (stageTable1 oracle) st [Event.flagsReset] with
      | (st1, es1, some e) =>
          let r := LiStopConnection st1
          (r.1, es1 ++ r.2, e)
      | (st1, es1, none) =>
          let p := autoAdjust oracle.isPrivateNetworkAddress st1
          match runStages intAt 2 (stageTable2 oracle) p.1 (es1 ++ p.2) with
          | (st2, es2, some e) =>
              let r := LiStopConnection st2
              (r.1, es2 ++ r.2, e)
          | (st2, es2, none) =>
              let q := maybeInterrupt intAt 11 st2 es2
              (q.1,
               q.2 ++ [Event.mouseMove 1 1, Event.sleepMs 10,
                       Event.mouseMove (-1) (-1), Event.sleepMs 10,
                       Event.connectionStarted],
               0)

/-! ### Trace projections -/

/-- Recognize a `stageComplete` event. -/
def isStageCompleteEvt : Event → Bool
  | Event.stageComplete _ => true
  | _ => false

/-- Number of `stageComplete` callbacks in a trace. -/
def completedCount (es : List Event) : Nat := es.countP isStageCompleteEvt

/-- The sequence of collaborator teardown operations in a trace. -/
def teardownTrace (es : List Event) : List TeardownOp :=
  es.filterMap fun e =>
    match e with
    | Event.teardown op => some op
    | _ => none

/-- Number of `connectionTerminated` deliveries in a trace. -/
def termEventCount (es : List Event) : Nat :=
  es.countP fun e =>
    match e with
    | Event.connectionTerminated _ => true
    | _ => false

/-- Whether a trace contains an `interruptRequested` marker. -/
def hasIR (es : List Event) : Bool :=
  es.any fun e =>
    match e with
    | Event.interruptRequested => true
    | _ => false

/-- Number of `modeResolved` markers in a trace. -/
def modeEventCount (es : List Event) : Nat :=
  es.countP fun e =>
    match e with
    | Event.modeResolved _ => true
    | _ => false

/-- The stage ids whose collaborator operation can fail (platform init, name
resolution, RTSP handshake, control stream init, and the four stream starts;
video/audio/input init return `void`). -/
def fallibleStages : List Nat :=
  [STAGE_PLATFORM_INIT, STAGE_NAME_RESOLUTION, STAGE_RTSP_HANDSHAKE,
   STAGE_CONTROL_STREAM_INIT, STAGE_CONTROL_STREAM_START,
   STAGE_VIDEO_STREAM_START, STAGE_AUDIO_STREAM_START, STAGE_INPUT_STREAM_START]

/-- Number of `stageComplete` events for fallible stages in a trace. -/
def fcCount (es : List Event) : Nat :=
  es.countP fun e =>
    match e with
    | Event.stageComplete s => fallibleStages.contains s
    | _ => false

/-- Check that no fallible stage completes after an interrupt request: scan
the trace, and once an `interruptRequested` marker has been seen (`seen`),
reject any later `stageComplete` of a fallible stage. -/
def noFCAfter (seen : Bool) : List Event → Bool
  | [] => true
  | Event.interruptRequested :: rest => noFCAfter true rest
  | Event.stageComplete s :: rest =>
      (!seen || !(fallibleStages.contains s)) && noFCAfter seen rest
  | _ :: rest => noFCAfter seen rest

/-- Caller-visible events: the callback bundle invocations plus the injected
mouse events and pauses (instrumentation markers and collaborator teardown
calls removed). -/
def isCallerEvt : Event → Bool
  | Event.stageStarting _ => true
  | Event.stageComplete _ => true
  | Event.stageFailed _ _ => true
  | Event.connectionStarted => true
  | Event.connectionTerminated _ => true
  | Event.mouseMove _ _ => true
  | Event.sleepMs _ => true
  | _ => false

/-- The caller-visible part of a trace. -/
def callerTrace (es : List Event) : List Event := es.filter isCallerEvt

/-- Stage-callback events together with the `modeResolved` marker, used to
state where the auto streaming-mode resolution sits in the stage sequence. -/
def isResEvt : Event → Bool
  | Event.stageStarting _ => true
  | Event.stageComplete _ => true
  | Event.stageFailed _ _ => true
  | Event.modeResolved _ => true
  | _ => false

/-- The stage-and-resolution part of a trace. -/
def resTrace (es : List Event) : List Event := es.filter isResEvt

/-- Whether a block list contains a fallible entry. -/
def hasFallible (blocks : List (Nat × Option Int)) : Bool :=
  blocks.any fun b => b.2.isSome

/-- Well-formedness of a block list: infallible entries carry infallible
stage ids. -/
def blocksWF (blocks : List (Nat × Option Int)) : Prop :=
  ∀ p ∈ blocks, p.2 = none → fallibleStages.contains p.1 = false

/-- The teardown operation matching a completed stage (`none` for the two
stages with nothing to undo). -/
def stageTeardownOp : Nat → Option TeardownOp
  | 1 => some TeardownOp.cleanupPlatform
  | 4 => some TeardownOp.destroyControlStream
  | 5 => some TeardownOp.destroyVideoStream
  | 6 => some TeardownOp.destroyAudioStream
  | 7 => some TeardownOp.destroyInputStream
  | 8 => some TeardownOp.stopControlStream
  | 9 => some TeardownOp.stopVideoStream
  | 10 => some TeardownOp.stopAudioStream
  | 11 => some TeardownOp.stopInputStream
  | _ => none

/-- The teardown operations for the completed-stage prefix `1..k`, in exact
reverse order of initialization. -/
def expectedUnwind (k : Nat) : List TeardownOp :=
  (List.range (k + 1)).reverse.filterMap stageTeardownOp

/-! ### Concrete fixtures used by witnesses and counterexamples -/

/-- A stream configuration with the given packet size and mode hint. -/
def testConfig (p : Int) (m : Nat) : STREAM_CONFIGURATION :=
  { packetSize := p, streamingRemotely := m, bitrate := 10000 }

/-- The quiescent controller state: stage `None`, both flags clear. -/
def testState : ConnState :=
  { stage := 0, alreadyTerminated := false, connectionInterrupted := false,
    remoteAddrString := none, streamConfig := testConfig 1024 0,
    originalVideoBitrate := 0, appVersionQuad := none,
    negotiatedVideoFormat := 0, terminationCallbackErrorCode := 0 }

/-- Valid server information (well-formed app version). -/
def testInfo : SERVER_INFORMATION :=
  { address := "192.168.1.2", serverInfoAppVersion := some (7, 1, 450, 0) }

/-- An oracle on which every collaborator call succeeds. -/
def okOracle : CONNECTION_ORACLE :=
  { initializePlatform := 0, resolveHostName := 0, isPrivateNetworkAddress := true,
    performRtspHandshake := 0, initializeControlStream := 0, startControlStream := 0,
    startVideoStream := 0, startAudioStream := 0, startInputStream := 0 }

/-- An oracle on which `startVideoStream` fails with error 5. -/
def vfOracle : CONNECTION_ORACLE := { okOracle with startVideoStream := 5 }

/-- An all-success oracle whose resolved address is not in a private range. -/
def remoteOracle : CONNECTION_ORACLE := { okOracle with isPrivateNetworkAddress := false }

/-- Server information whose app-version string is malformed. -/
def badVersionInfo : SERVER_INFORMATION :=
  { address := "192.168.1.2", serverInfoAppVersion := none }

/-- A quiescent state left by a previous session: terminated flag still set. -/
def staleState : ConnState := { testState with alreadyTerminated := true }

/-- The quiescent state after `LiInterruptConnection` was called before start:
the interrupted flag is already set when start() begins. -/
def preInterruptedState : ConnState := { testState with connectionInterrupted := true }

/-! ### Trace bookkeeping lemmas -/

@[simp] theorem completedCount_append (a b : List Event) :
    completedCount (a ++ b) = completedCount a + completedCount b := by
  simp [completedCount]

@[simp] theorem teardownTrace_append (a b : List Event) :
    teardownTrace (a ++ b) = teardownTrace a ++ teardownTrace b := by
  simp [teardownTrace]

@[simp] theorem termEventCount_append (a b : List Event) :
    termEventCount (a ++ b) = termEventCount a + termEventCount b := by
  simp [termEventCount]

@[simp] theorem hasIR_append (a b : List Event) :
    hasIR (a ++ b) = (hasIR a || hasIR b) := by
  simp [hasIR]

@[simp] theorem fcCount_append (a b : List Event) :
    fcCount (a ++ b) = fcCount a + fcCount b := by
  simp [fcCount]

@[simp] theorem modeEventCount_append (a b : List Event) :
    modeEventCount (a ++ b) = modeEventCount a + modeEventCount b := by
  simp [modeEventCount]

@[simp] theorem callerTrace_append (a b : List Event) :
    callerTrace (a ++ b) = callerTrace a ++ callerTrace b := by
  simp [callerTrace]

@[simp] theorem resTrace_append (a b : List Event) :
    resTrace (a ++ b) = resTrace a ++ resTrace b := by
  simp [resTrace]

theorem noFCAfter_append (a b : List Event) : ∀ seen,
    noFCAfter seen (a ++ b) = (noFCAfter seen a && noFCAfter (seen || hasIR a) b) := by
  induction a with
  | nil => intro seen; simp [noFCAfter, hasIR]
  | cons e rest ih =>
    intro seen
    cases e <;> simp [noFCAfter, hasIR, ih, Bool.and_assoc]

theorem noFCAfter_of_no_fc : ∀ es, (∀ e ∈ es, (fun e =>
      match e with
      | Event.stageComplete s => fallibleStages.contains s
      | _ => false) e = false) → ∀ seen, noFCAfter seen es = true := by
  intro es
  induction es with
  | nil => intro _ seen; rfl
  | cons e rest ih =>
    intro h seen
    have he := h e (by simp)
    have hr : ∀ x ∈ rest, _ = false := fun x hx => h x (by simp [hx])
    cases e <;> simp only [noFCAfter] <;> first
      | exact ih hr seen
      | exact ih hr true
      | · rename_i s
          simp only at he
          rw [he]
          simp [ih hr seen]

theorem noFCAfter_of_fcCount_zero (es : List Event) (h : fcCount es = 0) (seen : Bool) :
    noFCAfter seen es = true := by
  apply noFCAfter_of_no_fc
  intro e he
  have := List.countP_eq_zero.mp h e he
  simpa using this

theorem noFCAfter_of_not_hasIR : ∀ es, hasIR es = false → noFCAfter false es = true := by
  intro es
  induction es with
  | nil => intro _; rfl
  | cons e rest ih =>
    intro h
    rw [hasIR, List.any_cons, Bool.or_eq_false_iff] at h
    obtain ⟨h1, h2⟩ := h
    have hr := ih h2
    cases e <;> simp only [noFCAfter] <;> first
      | exact hr
      | · simp [hr]
      | · simp at h1

/-! ### LiStopConnection lemmas -/

@[simp] theorem stopStep_fst_alreadyTerminated (v : Nat) (op : Option TeardownOp)
    (r : ConnState × List Event) :
    (stopStep v op r).1.alreadyTerminated = r.1.alreadyTerminated := by
  obtain ⟨st, es⟩ := r
  simp only [stopStep]
  split <;> rfl

@[simp] theorem stopStep_fst_connectionInterrupted (v : Nat) (op : Option TeardownOp)
    (r : ConnState × List Event) :
    (stopStep v op r).1.connectionInterrupted = r.1.connectionInterrupted := by
  obtain ⟨st, es⟩ := r
  simp only [stopStep]
  split <;> rfl

@[simp] theorem stopStep_fst_streamConfig (v : Nat) (op : Option TeardownOp)
    (r : ConnState × List Event) :
    (stopStep v op r).1.streamConfig = r.1.streamConfig := by
  obtain ⟨st, es⟩ := r
  simp only [stopStep]
  split <;> rfl

@[simp] theorem stopStep_snd_termEventCount (v : Nat) (op : Option TeardownOp)
    (r : ConnState × List Event) :
    termEventCount (stopStep v op r).2 = termEventCount r.2 := by
  obtain ⟨st, es⟩ := r
  simp only [stopStep]
  split
  · cases op <;> simp [termEventCount]
  · rfl

@[simp] theorem stopStep_snd_fcCount (v : Nat) (op : Option TeardownOp)
    (r : ConnState × List Event) :
    fcCount (stopStep v op r).2 = fcCount r.2 := by
  obtain ⟨st, es⟩ := r
  simp only [stopStep]
  split
  · cases op <;> simp [fcCount]
  · rfl

@[simp] theorem stopStep_snd_hasIR (v : Nat) (op : Option TeardownOp)
    (r : ConnState × List Event) :
    hasIR (stopStep v op r).2 = hasIR r.2 := by
  obtain ⟨st, es⟩ := r
  simp only [stopStep]
  split
  · cases op <;> simp [hasIR]
  · rfl

@[simp] theorem stopStep_snd_modeEventCount (v : Nat) (op : Option TeardownOp)
    (r : ConnState × List Event) :
    modeEventCount (stopStep v op r).2 = modeEventCount r.2 := by
  obtain ⟨st, es⟩ := r
  simp only [stopStep]
  split
  · cases op <;> simp [modeEventCount]
  · rfl

@[simp] theorem stopConn_alreadyTerminated (st : ConnState) :
    (LiStopConnection st).1.alreadyTerminated = true := by
  simp [LiStopConnection, LiInterruptConnection]

@[simp] theorem stopConn_connectionInterrupted (st : ConnState) :
    (LiStopConnection st).1.connectionInterrupted = true := by
  simp [LiStopConnection, LiInterruptConnection]

@[simp] theorem stopConn_streamConfig (st : ConnState) :
    (LiStopConnection st).1.streamConfig = st.streamConfig := by
  simp [LiStopConnection, LiInterruptConnection]

@[simp] theorem stopConn_remoteAddrString (st : ConnState) :
    (LiStopConnection st).1.remoteAddrString = none := by
  simp [LiStopConnection]

@[simp] theorem stopConn_termEventCount (st : ConnState) :
    termEventCount (LiStopConnection st).2 = 0 := by
  simp [LiStopConnection]
  rfl

@[simp] theorem stopConn_fcCount (st : ConnState) :
    fcCount (LiStopConnection st).2 = 0 := by
  simp [LiStopConnection]
  rfl

@[simp] theorem stopConn_hasIR (st : ConnState) :
    hasIR (LiStopConnection st).2 = false := by
  simp [LiStopConnection]
  rfl

@[simp] theorem stopConn_modeEventCount (st : ConnState) :
    modeEventCount (LiStopConnection st).2 = 0 := by
  simp [LiStopConnection]
  rfl

/-- Full characterization of `LiStopConnection` on every reachable stage: the
stage is unwound to `None`, both flags are set, the address string is freed,
and the teardown operations performed are exactly those of the completed
prefix, in reverse order of initialization.  This also discharges the
`LC_ASSERT(stage == STAGE_NONE)` at the end of the C function. -/
theorem stopConn_spec (st : ConnState) (h : st.stage ≤ 11) :
    LiStopConnection st =
      ({ st with stage := 0, alreadyTerminated := true, connectionInterrupted := true,
                 remoteAddrString := none },
       (expectedUnwind st.stage).map Event.teardown) := by
  obtain ⟨s, a, c, r, cfg, b, q, n, t⟩ := st
  have hs : s ≤ 11 := h
  interval_cases s <;> rfl

/-! ### Claims C3 and C9 -/

/-- Claim C3: stop is idempotent and safe without a prior start.  From any
state whose stage is `None` (the initial state, the state after a previous
stop, or after a failed start's self-unwind), `LiStopConnection` performs no
teardown operation, does not fail, leaves the stage at `None`, and leaves
the address string cleared; its only effect is setting the terminated and
interrupted flags. -/
theorem stop_idempotent_from_none (st : ConnState) (h : st.stage = STAGE_NONE) :
    LiStopConnection st =
      ({ st with alreadyTerminated := true, connectionInterrupted := true,
                 remoteAddrString := none }, []) := by
  have hspec := stopConn_spec st (by rw [h]; norm_num [STAGE_NONE])
  rw [hspec, h]
  rfl

theorem stop_idempotent_from_none_witness :
    LiStopConnection testState =
      ({ testState with
          alreadyTerminated := true, connectionInterrupted := true,
          remoteAddrString := none }, []) :=
  stop_idempotent_from_none testState rfl

/-- Claim C9 (amended): the stage-name lookup is a pure, total function over
the fixed stage enumeration, returning each stage's fixed label for every
ordinal from `None` through `InputStreamStart`; an out-of-range input
performs an unchecked out-of-bounds array read (undefined behavior) — the
function contains no assertion. -/
theorem stage_name_lookup_spec :
    LiGetStageName STAGE_NONE = Except.ok "none" ∧
    LiGetStageName STAGE_PLATFORM_INIT = Except.ok "platform initialization" ∧
    LiGetStageName STAGE_NAME_RESOLUTION = Except.ok "name resolution" ∧
    LiGetStageName STAGE_RTSP_HANDSHAKE = Except.ok "RTSP handshake" ∧
    LiGetStageName STAGE_CONTROL_STREAM_INIT = Except.ok "control stream initialization" ∧
    LiGetStageName STAGE_VIDEO_STREAM_INIT = Except.ok "video stream initialization" ∧
    LiGetStageName STAGE_AUDIO_STREAM_INIT = Except.ok "audio stream initialization" ∧
    LiGetStageName STAGE_INPUT_STREAM_INIT = Except.ok "input stream initialization" ∧
    LiGetStageName STAGE_CONTROL_STREAM_START = Except.ok "control stream establishment" ∧
    LiGetStageName STAGE_VIDEO_STREAM_START = Except.ok "video stream establishment" ∧
    LiGetStageName STAGE_AUDIO_STREAM_START = Except.ok "audio stream establishment" ∧
    LiGetStageName STAGE_INPUT_STREAM_START = Except.ok "input stream establishment" ∧
    (∀ s : Nat, STAGE_MAX ≤ s →
        LiGetStageName s = Except.error RuntimeFault.outOfBoundsRead) := by
  refine ⟨rfl, rfl, rfl, rfl, rfl, rfl, rfl, rfl, rfl, rfl, rfl, rfl, ?_⟩
  intro s hs
  have hn : stageNames[s]? = none := by
    apply List.getElem?_eq_none
    simpa [stageNames, STAGE_MAX] using hs
  unfold LiGetStageName
  rw [hn]

theorem stage_name_lookup_spec_witness :
    LiGetStageName 0 = Except.ok "none" ∧
    LiGetStageName 15 = Except.error RuntimeFault.outOfBoundsRead :=
  ⟨stage_name_lookup_spec.1,
   stage_name_lookup_spec.2.2.2.2.2.2.2.2.2.2.2.2 15 (by norm_num [STAGE_MAX])⟩

/-- Claim C9 counterexample: the claim says an out-of-range input triggers a
fatal assertion, but `LiGetStageName` contains no assertion: the access at
stage 12 is an unchecked out-of-bounds array read, not an assertion
failure. -/
theorem stage_name_no_assertion :
    LiGetStageName STAGE_MAX = Except.error RuntimeFault.outOfBoundsRead ∧
    LiGetStageName STAGE_MAX ≠ Except.error RuntimeFault.assertionFailure := by
  refine ⟨rfl, ?_⟩
  intro h
  have h1 : Except.error (ε := RuntimeFault) (α := String) RuntimeFault.outOfBoundsRead =
      Except.error RuntimeFault.assertionFailure := h
  exact RuntimeFault.noConfusion (Except.error.inj h1)

/-! ### Claim C2: termination shim -/

theorem ClInternal_noop (code : Int) (st : ConnState)
    (h : st.alreadyTerminated = true ∨ st.connectionInterrupted = true) :
    ClInternalConnectionTerminated code st = (st, []) := by
  rw [ClInternalConnectionTerminated, if_pos]
  rcases h with h | h <;> simp [h]

theorem runOps_no_term_of_terminated : ∀ (ops : List SessionOp) (st : ConnState),
    st.alreadyTerminated = true → termEventCount (runOps st ops).2 = 0 := by
  intro ops
  induction ops with
  | nil => intro st _; rfl
  | cons op rest ih =>
    intro st h
    cases op with
    | termNotify code =>
      simp only [runOps]
      rw [ClInternal_noop code st (Or.inl h)]
      simpa [termEventCount] using ih st h
    | stopConn =>
      simp only [runOps, termEventCount_append]
      have h1 := stopConn_termEventCount st
      have h2 := ih (LiStopConnection st).1 (stopConn_alreadyTerminated st)
      omega
    | interruptReq =>
      simp only [runOps]
      have h2 := ih (LiInterruptConnection st) (by simpa [LiInterruptConnection] using h)
      simpa [termEventCount] using h2

theorem runOps_no_term_of_interrupted : ∀ (ops : List SessionOp) (st : ConnState),
    st.connectionInterrupted = true → termEventCount (runOps st ops).2 = 0 := by
  intro ops
  induction ops with
  | nil => intro st _; rfl
  | cons op rest ih =>
    intro st h
    cases op with
    | termNotify code =>
      simp only [runOps]
      rw [ClInternal_noop code st (Or.inr h)]
      simpa [termEventCount] using ih st h
    | stopConn =>
      simp only [runOps, termEventCount_append]
      have h1 := stopConn_termEventCount st
      have h2 := ih (LiStopConnection st).1 (stopConn_connectionInterrupted st)
      omega
    | interruptReq =>
      simp only [runOps]
      have h2 := ih (LiInterruptConnection st) (by simp [LiInterruptConnection])
      simpa [termEventCount] using h2

theorem runOps_atMostOne : ∀ (ops : List SessionOp) (st : ConnState),
    termEventCount (runOps st ops).2 ≤ 1 := by
  intro ops
  induction ops with
  | nil => intro st; simp [runOps, termEventCount]
  | cons op rest ih =>
    intro st
    cases op with
    | termNotify code =>
      simp only [runOps]
      by_cases h : st.alreadyTerminated = true ∨ st.connectionInterrupted = true
      · rw [ClInternal_noop code st h]
        simpa [termEventCount] using ih st
      · rw [not_or] at h
        obtain ⟨ha, hb⟩ := h
        rw [Bool.not_eq_true] at ha hb
        rw [ClInternalConnectionTerminated, if_neg (by simp [ha, hb])]
        rw [termEventCount_append]
        have h0 := runOps_no_term_of_terminated rest
          ({ st with terminationCallbackErrorCode := code, alreadyTerminated := true }) rfl
        simp only [h0]
        simp [termEventCount]
    | stopConn =>
      simp only [runOps, termEventCount_append]
      have h2 := runOps_no_term_of_terminated rest (LiStopConnection st).1
        (stopConn_alreadyTerminated st)
      have h1 := stopConn_termEventCount st
      omega
    | interruptReq =>
      have h2 := runOps_no_term_of_interrupted rest (LiInterruptConnection st)
        (by simp [LiInterruptConnection])
      have ht : termEventCount (runOps st (SessionOp.interruptReq :: rest)).2 =
          termEventCount (runOps (LiInterruptConnection st) rest).2 := by
        simp only [runOps, List.nil_append]
      omega

/-- Claim C2: the termination notification is delivered to the caller at
most once per session and never after stop.  The shim
`ClInternalConnectionTerminated` is a no-op whenever the terminated flag is
already set or interruption was requested; `LiStopConnection` sets the
terminated flag as its first action (before the interrupt flag and before
any teardown, as in the source order of the embedding); consequently any
sequence of session operations delivers at most one notification, and a
sequence run after a stop delivers none. -/
theorem termination_at_most_once :
    (∀ (st : ConnState) (code : Int),
        st.alreadyTerminated = true ∨ st.connectionInterrupted = true →
        ClInternalConnectionTerminated code st = (st, [])) ∧
    (∀ (st : ConnState) (ops : List SessionOp),
        termEventCount (runOps st ops).2 ≤ 1) ∧
    (∀ (st : ConnState) (ops : List SessionOp),
        termEventCount (runOps (LiStopConnection st).1 ops).2 = 0) ∧
    (∀ st : ConnState, (LiStopConnection st).1.alreadyTerminated = true ∧
        (LiStopConnection st).1.connectionInterrupted = true) :=
  ⟨fun st code h => ClInternal_noop code st h,
   fun st ops => runOps_atMostOne ops st,
   fun st ops => runOps_no_term_of_terminated ops _ (stopConn_alreadyTerminated st),
   fun st => ⟨stopConn_alreadyTerminated st, stopConn_connectionInterrupted st⟩⟩

theorem termination_at_most_once_witness :
    ClInternalConnectionTerminated 7 ({ testState with alreadyTerminated := true }) =
      ({ testState with alreadyTerminated := true }, []) ∧
    termEventCount (runOps testState [SessionOp.termNotify 3, SessionOp.termNotify 4]).2 ≤ 1 ∧
    termEventCount (runOps (LiStopConnection testState).1 [SessionOp.termNotify 3]).2 = 0 :=
  ⟨termination_at_most_once.1 _ 7 (Or.inl rfl),
   termination_at_most_once.2.1 testState _,
   termination_at_most_once.2.2.1 testState _⟩

/-! ### runStages lemmas -/

/-- Bookkeeping invariants of the stage-block runner: the trace only grows,
no teardown events are produced, the address string / stream configuration /
terminated flag are untouched, the stage counter advances exactly with the
`stageComplete` events (never skipping), a pass through `n` blocks advances
the stage by `n`, a reported failure code is nonzero, and the interrupted
flag is monotone. -/
theorem runStages_basic (intAt : Option Nat) :
    ∀ (blocks : List (Nat × Option Int)) (k : Nat) (st : ConnState) (es : List Event)
      (st' : ConnState) (es' : List Event) (oe : Option Int),
      runStages intAt k blocks st es = (st', es', oe) →
      (∃ t, es' = es ++ t) ∧
      teardownTrace es' = teardownTrace es ∧
      st'.remoteAddrString = st.remoteAddrString ∧
      st'.streamConfig = st.streamConfig ∧
      st'.alreadyTerminated = st.alreadyTerminated ∧
      st'.stage + completedCount es = st.stage + completedCount es' ∧
      completedCount es' ≤ completedCount es + blocks.length ∧
      (oe = none → st'.stage = st.stage + blocks.length) ∧
      (∀ e, oe = some e → e ≠ 0) ∧
      (st.connectionInterrupted = true → st'.connectionInterrupted = true) := by
  intro blocks
  induction blocks with
  | nil =>
    intro k st es st' es' oe h
    rw [runStages] at h
    simp only [Prod.mk.injEq] at h
    obtain ⟨rfl, rfl, rfl⟩ := h
    exact ⟨⟨[], by simp⟩, rfl, rfl, rfl, rfl, rfl, by simp,
           fun _ => by simp, fun e he => Option.noConfusion he, fun hh => hh⟩
  | cons b rest ih =>
    intro k st es st' es' oe h
    obtain ⟨sid, oerr⟩ := b
    obtain ⟨stg, fa, fc, ra, cfg, ob, av, nv, tc⟩ := st
    cases oerr with
    | none =>
      simp only [runStages, maybeInterrupt, LiInterruptConnection] at h
      by_cases hI : intAt = some k
      · rw [if_pos hI] at h
        try simp only at h
        obtain ⟨⟨t, ht⟩, h2, h3, h4, h5, h6, h7, h8, h9, h10⟩ := ih (k + 1) _ _ _ _ _ h
        simp only at h3 h4 h5 h6 h7 h8 h10
        simp [completedCount, isStageCompleteEvt] at h6 h7
        refine ⟨⟨[Event.interruptRequested, Event.stageStarting sid,
                   Event.stageComplete sid] ++ t, by rw [ht]; simp⟩,
                by simpa [teardownTrace] using h2,
                h3, h4, h5, by simp [completedCount]; omega,
                by simp [completedCount]; omega, ?_, h9, ?_⟩
        · intro h0
          have h8a := h8 h0
          simp [h8a, List.length_cons]
          omega
        · intro hh
          first
          | exact h10 trivial
          | exact h10 hh
          | exact h10 (by simpa using hh)
          | simp at hh
      · rw [if_neg hI] at h
        try simp only at h
        obtain ⟨⟨t, ht⟩, h2, h3, h4, h5, h6, h7, h8, h9, h10⟩ := ih (k + 1) _ _ _ _ _ h
        simp only at h3 h4 h5 h6 h7 h8 h10
        simp [completedCount, isStageCompleteEvt] at h6 h7
        refine ⟨⟨[Event.stageStarting sid, Event.stageComplete sid] ++ t,
                  by rw [ht]; simp⟩,
                by simpa [teardownTrace] using h2,
                h3, h4, h5, by simp [completedCount]; omega,
                by simp [completedCount]; omega, ?_, h9, ?_⟩
        · intro h0
          have h8a := h8 h0
          simp [h8a, List.length_cons]
          omega
        · intro hh
          first
          | exact h10 trivial
          | exact h10 hh
          | exact h10 (by simpa using hh)
          | simp at hh
    | some e0 =>
      simp only [runStages, maybeInterrupt, LiInterruptConnection] at h
      by_cases hI : intAt = some k
      · rw [if_pos hI] at h
        norm_num [interruptedErrorCode] at h
        obtain ⟨rfl, rfl, rfl⟩ := h
        refine ⟨⟨[Event.interruptRequested, Event.stageStarting sid,
                   Event.stageFailed sid (-2)], by simp⟩,
                by simp [teardownTrace], rfl, rfl, rfl,
                by simp [completedCount, isStageCompleteEvt], ?_, ?_, ?_, fun _ => rfl⟩
        · simp [completedCount, isStageCompleteEvt]
        · intro h0
          cases h0
        · intro e he
          injection he with he
          rw [← he]
          norm_num
      · rw [if_neg hI] at h
        try simp only at h
        by_cases hc : fc = true
        · subst hc
          norm_num [interruptedErrorCode] at h
          obtain ⟨rfl, rfl, rfl⟩ := h
          refine ⟨⟨[Event.stageStarting sid,
                     Event.stageFailed sid (-2)], by simp⟩,
                  by simp [teardownTrace], rfl, rfl, rfl,
                  by simp [completedCount, isStageCompleteEvt], ?_, ?_, ?_, fun _ => rfl⟩
          · simp [completedCount, isStageCompleteEvt]
          · intro h0
            cases h0
          · intro e he
            injection he with he
            rw [← he]
            norm_num
        · rw [Bool.not_eq_true] at hc
          subst hc
          norm_num at h
          by_cases he0 : e0 = 0
          · rw [if_pos he0] at h
            try simp only at h
            obtain ⟨⟨t, ht⟩, h2, h3, h4, h5, h6, h7, h8, h9, h10⟩ := ih (k + 1) _ _ _ _ _ h
            simp only at h3 h4 h5 h6 h7 h8 h10
            simp [completedCount, isStageCompleteEvt] at h6 h7
            refine ⟨⟨[Event.stageStarting sid, Event.stageComplete sid] ++ t,
                      by rw [ht]; simp⟩,
                    by simpa [teardownTrace] using h2,
                    h3, h4, h5, by simp [completedCount]; omega,
                    by simp [completedCount]; omega, ?_, h9, fun hh => by simp at hh⟩
            intro h0
            have h8a := h8 h0
            simp [h8a, List.length_cons]
            omega
          · rw [if_neg he0] at h
            simp only [Prod.mk.injEq] at h
            obtain ⟨rfl, rfl, rfl⟩ := h
            refine ⟨⟨[Event.stageStarting sid, Event.stageFailed sid e0], by simp⟩,
                    by simp [teardownTrace], rfl, rfl, rfl,
                    by simp [completedCount, isStageCompleteEvt], ?_, ?_, ?_,
                    fun hh => by simp at hh⟩
            · simp [completedCount, isStageCompleteEvt]
            · intro h0
              cases h0
            · intro e he
              injection he with he
              rw [← he]
              exact he0

/-- Once the interrupted flag is set, no fallible stage completes any more
(the spec-modelled collaborator gate fails instead), and if any fallible
block remains the run reports a failure. -/
theorem runStages_interrupted (intAt : Option Nat) :
    ∀ (blocks : List (Nat × Option Int)) (k : Nat) (st : ConnState) (es : List Event)
      (st' : ConnState) (es' : List Event) (oe : Option Int),
      blocksWF blocks → st.connectionInterrupted = true →
      runStages intAt k blocks st es = (st', es', oe) →
      fcCount es' = fcCount es ∧ (hasFallible blocks = true → oe.isSome = true) := by
  intro blocks
  induction blocks with
  | nil =>
    intro k st es st' es' oe _ _ h
    rw [runStages] at h
    simp only [Prod.mk.injEq] at h
    obtain ⟨rfl, rfl, rfl⟩ := h
    exact ⟨rfl, fun hf => by simp [hasFallible] at hf⟩
  | cons b rest ih =>
    intro k st es st' es' oe hwf hcflag h
    obtain ⟨sid, oerr⟩ := b
    obtain ⟨stg, fa, fcflag, ra, cfg, ob, av, nv, tc⟩ := st
    have hcf : fcflag = true := hcflag
    subst hcf
    have hwfrest : blocksWF rest := fun p hp hnone => hwf p (List.mem_cons_of_mem _ hp) hnone
    cases oerr with
    | none =>
      have hsid : fallibleStages.contains sid = false :=
        hwf (sid, none) (List.mem_cons_self _ _) rfl
      have hsidm : sid ∉ fallibleStages := by simpa using hsid
      simp only [runStages, maybeInterrupt, LiInterruptConnection] at h
      by_cases hI : intAt = some k
      · rw [if_pos hI] at h
        try simp only at h
        obtain ⟨hfc, hfal⟩ := ih (k + 1) _ _ _ _ _ hwfrest rfl h
        refine ⟨by rw [hfc]; simp [fcCount, hsid, hsidm], ?_⟩
        intro hf
        exact hfal (by simpa [hasFallible] using hf)
      · rw [if_neg hI] at h
        try simp only at h
        obtain ⟨hfc, hfal⟩ := ih (k + 1) _ _ _ _ _ hwfrest rfl h
        refine ⟨by rw [hfc]; simp [fcCount, hsid, hsidm], ?_⟩
        intro hf
        exact hfal (by simpa [hasFallible] using hf)
    | some e0 =>
      simp only [runStages, maybeInterrupt, LiInterruptConnection] at h
      by_cases hI : intAt = some k
      · rw [if_pos hI] at h
        norm_num [interruptedErrorCode] at h
        obtain ⟨rfl, rfl, rfl⟩ := h
        exact ⟨by simp [fcCount], fun _ => rfl⟩
      · rw [if_neg hI] at h
        norm_num [interruptedErrorCode] at h
        obtain ⟨rfl, rfl, rfl⟩ := h
        exact ⟨by simp [fcCount], fun _ => rfl⟩

/-- If the interrupt request is scheduled outside the range of the remaining
blocks, no `interruptRequested` marker is produced and the interrupted flag
is unchanged. -/
theorem runStages_noArrival (intAt : Option Nat) :
    ∀ (blocks : List (Nat × Option Int)) (k : Nat) (st : ConnState) (es : List Event)
      (st' : ConnState) (es' : List Event) (oe : Option Int),
      (∀ j, intAt = some j → j < k ∨ k + blocks.length ≤ j) →
      runStages intAt k blocks st es = (st', es', oe) →
      hasIR es' = hasIR es ∧ st'.connectionInterrupted = st.connectionInterrupted := by
  intro blocks
  induction blocks with
  | nil =>
    intro k st es st' es' oe _ h
    rw [runStages] at h
    simp only [Prod.mk.injEq] at h
    obtain ⟨rfl, rfl, rfl⟩ := h
    exact ⟨rfl, rfl⟩
  | cons b rest ih =>
    intro k st es st' es' oe hrange h
    obtain ⟨sid, oerr⟩ := b
    obtain ⟨stg, fa, fcflag, ra, cfg, ob, av, nv, tc⟩ := st
    have hI : ¬intAt = some k := by
      intro hI
      rcases hrange k hI with h1 | h1
      · omega
      · simp only [List.length_cons] at h1
        omega
    have hrange2 : ∀ j, intAt = some j → j < k + 1 ∨ (k + 1) + rest.length ≤ j := by
      intro j hj
      rcases hrange j hj with h1 | h1
      · left; omega
      · right
        simp only [List.length_cons] at h1
        omega
    cases oerr with
    | none =>
      simp only [runStages, maybeInterrupt, LiInterruptConnection] at h
      rw [if_neg hI] at h
      try simp only at h
      obtain ⟨hA, hB⟩ := ih (k + 1) _ _ _ _ _ hrange2 h
      refine ⟨by rw [hA]; simp [hasIR], by rw [hB]⟩
    | some e0 =>
      simp only [runStages, maybeInterrupt, LiInterruptConnection] at h
      rw [if_neg hI] at h
      try simp only at h
      by_cases hc : fcflag = true
      · subst hc
        norm_num [interruptedErrorCode] at h
        obtain ⟨rfl, rfl, rfl⟩ := h
        exact ⟨by simp [hasIR], rfl⟩
      · rw [Bool.not_eq_true] at hc
        subst hc
        norm_num at h
        by_cases he0 : e0 = 0
        · rw [if_pos he0] at h
          obtain ⟨hA, hB⟩ := ih (k + 1) _ _ _ _ _ hrange2 h
          refine ⟨by rw [hA]; simp [hasIR], by rw [hB]⟩
        · rw [if_neg he0] at h
          simp only [Prod.mk.injEq] at h
          obtain ⟨rfl, rfl, rfl⟩ := h
          exact ⟨by simp [hasIR], rfl⟩

/-- If the interrupt request arrives within the range of the remaining
blocks (and the flag is not yet set), then no fallible stage completes after
the `interruptRequested` marker, and if a fallible block lies at or after
the arrival point the run reports a failure. -/
theorem runStages_arrival (intAt : Option Nat) :
    ∀ (blocks : List (Nat × Option Int)) (k : Nat) (st : ConnState) (es : List Event)
      (st' : ConnState) (es' : List Event) (oe : Option Int) (j : Nat),
      blocksWF blocks →
      st.connectionInterrupted = false →
      intAt = some j → k ≤ j → j < k + blocks.length →
      hasIR es = false →
      runStages intAt k blocks st es = (st', es', oe) →
      noFCAfter false es' = true ∧
      (hasFallible (List.drop (j - k) blocks) = true → oe.isSome = true) := by
  intro blocks
  induction blocks with
  | nil =>
    intro k st es st' es' oe j _ _ _ hkj hjlt _ h
    simp only [List.length_nil, Nat.add_zero] at hjlt
    omega
  | cons b rest ih =>
    intro k st es st' es' oe j hwf hcflag hj hkj hjlt hesIR h
    obtain ⟨sid, oerr⟩ := b
    obtain ⟨stg, fa, fcflag, ra, cfg, ob, av, nv, tc⟩ := st
    have hcf : fcflag = false := hcflag
    subst hcf
    have hwfrest : blocksWF rest := fun p hp hnone => hwf p (List.mem_cons_of_mem _ hp) hnone
    by_cases hjk : j = k
    · subst hjk
      cases oerr with
      | none =>
        have hsid : fallibleStages.contains sid = false :=
          hwf (sid, none) (List.mem_cons_self _ _) rfl
        have hsidm : sid ∉ fallibleStages := by simpa using hsid
        simp only [runStages, maybeInterrupt, LiInterruptConnection] at h
        rw [if_pos hj] at h
        try simp only at h
        obtain ⟨⟨t, ht⟩, _, _, _, _, _, _, _, _, _⟩ := runStages_basic intAt rest _ _ _ _ _ _ h
        obtain ⟨hfc, hfal⟩ := runStages_interrupted intAt rest _ _ _ _ _ _ hwfrest rfl h
        constructor
        · have hsc : fcCount [Event.stageComplete sid] = 0 := by
            simp [fcCount, hsid, hsidm]
          have htfc : fcCount t = 0 := by
            have h1 := hfc
            rw [ht] at h1
            rw [fcCount_append] at h1
            omega
          rw [ht]
          simp only [List.append_assoc]
          rw [noFCAfter_append]
          have hb : noFCAfter (false || hasIR es)
              ([Event.interruptRequested] ++ ([Event.stageStarting sid] ++
                ([Event.stageComplete sid] ++ t))) = true := by
            apply noFCAfter_of_fcCount_zero
            simp only [fcCount_append]
            have h4 : fcCount [Event.interruptRequested] = 0 := rfl
            have h5 : fcCount [Event.stageStarting sid] = 0 := rfl
            omega
          rw [hb]
          simp [noFCAfter_of_not_hasIR es hesIR]
        · intro hf
          apply hfal
          simpa [hasFallible, Nat.sub_self] using hf
      | some e0 =>
        simp only [runStages, maybeInterrupt, LiInterruptConnection] at h
        rw [if_pos hj] at h
        norm_num [interruptedErrorCode] at h
        obtain ⟨rfl, rfl, rfl⟩ := h
        constructor
        · try simp only [List.append_assoc]
          rw [noFCAfter_append, noFCAfter_of_not_hasIR es hesIR]
          simp [noFCAfter]
        · intro _
          rfl
    · have hkj2 : k + 1 ≤ j := by omega
      have hI : ¬intAt = some k := by
        intro hcon
        rw [hj] at hcon
        injection hcon with hcon
        omega
      have hjlt2 : j < (k + 1) + rest.length := by
        simp only [List.length_cons] at hjlt
        omega
      have hdrop : List.drop (j - k) ((sid, oerr) :: rest) = List.drop (j - (k + 1)) rest := by
        have hjj : j - k = (j - (k + 1)) + 1 := by omega
        rw [hjj, List.drop_succ_cons]
      cases oerr with
      | none =>
        simp only [runStages, maybeInterrupt, LiInterruptConnection] at h
        rw [if_neg hI] at h
        try simp only at h
        obtain ⟨hA, hB⟩ := ih (k + 1) _ _ _ _ _ j hwfrest rfl hj hkj2 hjlt2
          (by simp only [hasIR_append, hesIR]; rfl) h
        refine ⟨hA, ?_⟩
        intro hf
        apply hB
        rwa [hdrop] at hf
      | some e0 =>
        simp only [runStages, maybeInterrupt, LiInterruptConnection] at h
        rw [if_neg hI] at h
        norm_num at h
        by_cases he0 : e0 = 0
        · rw [if_pos he0] at h
          obtain ⟨hA, hB⟩ := ih (k + 1) _ _ _ _ _ j hwfrest rfl hj hkj2 hjlt2
            (by simp only [hasIR_append, hesIR]; rfl) h
          refine ⟨hA, ?_⟩
          intro hf
          apply hB
          rwa [hdrop] at hf
        · rw [if_neg he0] at h
          simp only [Prod.mk.injEq] at h
          obtain ⟨rfl, rfl, rfl⟩ := h
          constructor
          · apply noFCAfter_of_not_hasIR
            simp only [hasIR_append, hesIR]
            rfl
          · intro _
            rfl

/-- With no interrupt scheduled, `maybeInterrupt` is the identity. -/
theorem maybeInterrupt_none (k : Nat) (st : ConnState) (es : List Event) :
    maybeInterrupt none k st es = (st, es) := by
  simp [maybeInterrupt]

/-- With no interrupt scheduled, the trace of a nonempty block list starts
with the first block's `stageStarting` callback right after the inherited
prefix. -/
theorem runStages_cons_trace (intAt : Option Nat) (k sid : Nat) (oerr : Option Int)
    (rest : List (Nat × Option Int)) (st : ConnState) (es : List Event)
    (hI : intAt = none) :
    ∃ t, (runStages intAt k ((sid, oerr) :: rest) st es).2.1 =
      es ++ Event.stageStarting sid :: t := by
  subst hI
  cases oerr with
  | none =>
    simp only [runStages, maybeInterrupt_none]
    rcases hr : runStages none (k + 1) rest { st with stage := st.stage + 1 }
      (es ++ [Event.stageStarting sid] ++ [Event.stageComplete sid]) with ⟨st', es', oe⟩
    obtain ⟨⟨t, ht⟩, _, _, _, _, _, _, _, _, _⟩ := runStages_basic none rest _ _ _ _ _ _ hr
    refine ⟨Event.stageComplete sid :: t, ?_⟩
    simp [ht]
  | some e0 =>
    simp only [runStages, maybeInterrupt_none]
    by_cases hc : st.connectionInterrupted = true
    · rw [if_pos hc, if_neg (by norm_num [interruptedErrorCode])]
      exact ⟨[Event.stageFailed sid interruptedErrorCode], by simp⟩
    · rw [Bool.not_eq_true] at hc
      rw [hc]
      simp only [Bool.false_eq_true, if_false]
      by_cases he0 : e0 = 0
      · rw [if_pos he0]
        rcases hr : runStages none (k + 1) rest
            { st with stage := st.stage + 1, connectionInterrupted := false }
          (es ++ [Event.stageStarting sid] ++ [Event.stageComplete sid]) with ⟨st', es', oe⟩
        obtain ⟨⟨t, ht⟩, _, _, _, _, _, _, _, _, _⟩ := runStages_basic none rest _ _ _ _ _ _ hr
        refine ⟨Event.stageComplete sid :: t, ?_⟩
        simp [ht]
      · rw [if_neg he0]
        exact ⟨[Event.stageFailed sid e0], by simp⟩

/-! ### Start lemmas -/

@[simp] theorem completedCount_map_teardown (l : List TeardownOp) :
    completedCount (l.map Event.teardown) = 0 := by
  rw [completedCount, List.countP_eq_zero]
  intro e he
  rw [List.mem_map] at he
  obtain ⟨op, _, rfl⟩ := he
  simp [isStageCompleteEvt]

@[simp] theorem teardownTrace_map_teardown (l : List TeardownOp) :
    teardownTrace (l.map Event.teardown) = l := by
  induction l with
  | nil => rfl
  | cons a l ih =>
    rw [List.map_cons, teardownTrace, List.filterMap_cons]
    simp only []
    rw [teardownTrace] at ih
    rw [ih]

@[simp] theorem fcCount_map_teardown (l : List TeardownOp) :
    fcCount (l.map Event.teardown) = 0 := by
  rw [fcCount, List.countP_eq_zero]
  intro e he
  rw [List.mem_map] at he
  obtain ⟨op, _, rfl⟩ := he
  simp

@[simp] theorem hasIR_map_teardown (l : List TeardownOp) :
    hasIR (l.map Event.teardown) = false := by
  rw [hasIR, List.any_eq_false]
  intro e he
  rw [List.mem_map] at he
  obtain ⟨op, _, rfl⟩ := he
  simp

@[simp] theorem modeEventCount_map_teardown (l : List TeardownOp) :
    modeEventCount (l.map Event.teardown) = 0 := by
  rw [modeEventCount, List.countP_eq_zero]
  intro e he
  rw [List.mem_map] at he
  obtain ⟨op, _, rfl⟩ := he
  simp

@[simp] theorem autoAdjust_fst_stage (b : Bool) (st : ConnState) :
    (autoAdjust b st).1.stage = st.stage := by
  rw [autoAdjust]
  split
  · split <;> rfl
  · rfl

@[simp] theorem autoAdjust_fst_remoteAddrString (b : Bool) (st : ConnState) :
    (autoAdjust b st).1.remoteAddrString = st.remoteAddrString := by
  rw [autoAdjust]
  split
  · split <;> rfl
  · rfl

@[simp] theorem autoAdjust_fst_alreadyTerminated (b : Bool) (st : ConnState) :
    (autoAdjust b st).1.alreadyTerminated = st.alreadyTerminated := by
  rw [autoAdjust]
  split
  · split <;> rfl
  · rfl

@[simp] theorem autoAdjust_fst_connectionInterrupted (b : Bool) (st : ConnState) :
    (autoAdjust b st).1.connectionInterrupted = st.connectionInterrupted := by
  rw [autoAdjust]
  split
  · split <;> rfl
  · rfl

@[simp] theorem autoAdjust_snd_completedCount (b : Bool) (st : ConnState) :
    completedCount (autoAdjust b st).2 = 0 := by
  rw [autoAdjust]
  split
  · split <;> rfl
  · rfl

@[simp] theorem autoAdjust_snd_teardownTrace (b : Bool) (st : ConnState) :
    teardownTrace (autoAdjust b st).2 = [] := by
  rw [autoAdjust]
  split
  · split <;> rfl
  · rfl

@[simp] theorem autoAdjust_snd_fcCount (b : Bool) (st : ConnState) :
    fcCount (autoAdjust b st).2 = 0 := by
  rw [autoAdjust]
  split
  · split <;> rfl
  · rfl

@[simp] theorem autoAdjust_snd_hasIR (b : Bool) (st : ConnState) :
    hasIR (autoAdjust b st).2 = false := by
  rw [autoAdjust]
  split
  · split <;> rfl
  · rfl

theorem expectedUnwind_nodup (n : Nat) (hn : n ≤ 11) : (expectedUnwind n).Nodup := by
  interval_cases n <;> decide

/-- Pre-stage validation failure: if the rounded packet size is zero or the
version string is malformed, start() returns `-1` with an empty trace, a
freed address string, stage `None`, and both flags set by the unwind. -/
theorem start_prestage_fail (st0 : ConnState) (info : SERVER_INFORMATION)
    (cfg : STREAM_CONFIGURATION) (oracle : CONNECTION_ORACLE) (intAt : Option Nat)
    (h0 : st0.stage = STAGE_NONE)
    (hpre : roundPacketSize cfg.packetSize = 0 ∨ info.serverInfoAppVersion = none) :
    (LiStartConnection st0 info cfg oracle intAt).2.2 = -1 ∧
    (LiStartConnection st0 info cfg oracle intAt).2.1 = [] ∧
    (LiStartConnection st0 info cfg oracle intAt).1.stage = STAGE_NONE ∧
    (LiStartConnection st0 info cfg oracle intAt).1.remoteAddrString = none ∧
    (LiStartConnection st0 info cfg oracle intAt).1.alreadyTerminated = true ∧
    (LiStartConnection st0 info cfg oracle intAt).1.connectionInterrupted = true := by
  obtain ⟨stg, fa, fc, ra, scfg, ob, av, nv, tc⟩ := st0
  have h0s : stg = 0 := h0
  subst h0s
  rcases hr : LiStartConnection
      ({ stage := 0, alreadyTerminated := fa, connectionInterrupted := fc,
         remoteAddrString := ra, streamConfig := scfg, originalVideoBitrate := ob,
         appVersionQuad := av, negotiatedVideoFormat := nv,
         terminationCallbackErrorCode := tc } : ConnState) info cfg oracle intAt
    with ⟨st', es', err⟩
  simp only [LiStartConnection] at hr
  have hstop := stopConn_spec
      ({ stage := 0, alreadyTerminated := fa, connectionInterrupted := fc,
         remoteAddrString := some info.address,
         streamConfig := { cfg with packetSize := roundPacketSize cfg.packetSize },
         originalVideoBitrate := cfg.bitrate,
         appVersionQuad := av, negotiatedVideoFormat := 0,
         terminationCallbackErrorCode := tc } : ConnState) (by norm_num)
  rcases hpre with hps | hv
  · rw [if_pos hps] at hr
    rw [hstop] at hr
    simp only [Prod.mk.injEq] at hr
    obtain ⟨rfl, rfl, rfl⟩ := hr
    exact ⟨rfl, rfl, rfl, rfl, rfl, rfl⟩
  · by_cases hps : roundPacketSize cfg.packetSize = 0
    · rw [if_pos hps] at hr
      rw [hstop] at hr
      simp only [Prod.mk.injEq] at hr
      obtain ⟨rfl, rfl, rfl⟩ := hr
      exact ⟨rfl, rfl, rfl, rfl, rfl, rfl⟩
    · rw [if_neg hps, hv] at hr
      rw [hstop] at hr
      simp only [Prod.mk.injEq] at hr
      obtain ⟨rfl, rfl, rfl⟩ := hr
      exact ⟨rfl, rfl, rfl, rfl, rfl, rfl⟩

/-- Any failing start() run leaves stage `None` and its teardown trace is
exactly the reverse-order unwind of the completed prefix. -/
theorem start_spec_fail (st0 : ConnState) (info : SERVER_INFORMATION)
    (cfg : STREAM_CONFIGURATION) (oracle : CONNECTION_ORACLE) (intAt : Option Nat)
    (st' : ConnState) (es' : List Event) (err : Int)
    (h0 : st0.stage = STAGE_NONE)
    (h : LiStartConnection st0 info cfg oracle intAt = (st', es', err))
    (hne : err ≠ 0) :
    st'.stage = STAGE_NONE ∧ completedCount es' ≤ 11 ∧
    teardownTrace es' = expectedUnwind (completedCount es') := by
  by_cases hps : roundPacketSize cfg.packetSize = 0
  · obtain ⟨ha, hb, hcs, _, _, _⟩ := start_prestage_fail st0 info cfg oracle intAt h0 (Or.inl hps)
    rw [h] at hb hcs
    simp only at hb hcs
    rw [hb]
    exact ⟨hcs, by simp [completedCount], by simp [completedCount]; rfl⟩
  · rcases hv : info.serverInfoAppVersion with _ | quad
    · obtain ⟨ha, hb, hcs, _, _, _⟩ := start_prestage_fail st0 info cfg oracle intAt h0 (Or.inr hv)
      rw [h] at hb hcs
      simp only at hb hcs
      rw [hb]
      exact ⟨hcs, by simp [completedCount], by simp [completedCount]; rfl⟩
    · simp only [LiStartConnection] at h
      rw [if_neg hps] at h
      split at h
      next heqv =>
        exfalso
        rw [hv] at heqv
        simp at heqv
      next quad2 heqv =>
        split at h
        next st1 es1 e heq1 =>
          obtain ⟨⟨t1, ht1⟩, htd1, _, _, _, hcc1, hbd1, _, _, _⟩ :=
            runStages_basic intAt _ _ _ _ _ _ _ heq1
          simp only [stageTable1, List.length_cons, List.length_nil] at hbd1
          have hfr : completedCount [Event.flagsReset] = 0 := rfl
          rw [hfr] at hcc1 hbd1
          try dsimp only at hcc1
          rw [h0] at hcc1
          have hst1 : st1.stage ≤ 11 := by
            norm_num [STAGE_NONE] at hcc1
            omega
          rw [stopConn_spec st1 hst1] at h
          simp only [Prod.mk.injEq] at h
          obtain ⟨rfl, rfl, rfl⟩ := h
          have hcc : completedCount es1 = st1.stage := by
            norm_num [STAGE_NONE] at hcc1
            omega
          have htd : teardownTrace es1 = [] := by
            simpa [teardownTrace] using htd1
          refine ⟨rfl, ?_, ?_⟩
          · rw [completedCount_append, completedCount_map_teardown, hcc]
            omega
          · rw [teardownTrace_append, completedCount_append, htd,
                completedCount_map_teardown, teardownTrace_map_teardown, hcc]
            simp
        next st1 es1 heq1 =>
          obtain ⟨⟨t1, ht1⟩, htd1, _, _, _, hcc1, hbd1, hpass1, _, _⟩ :=
            runStages_basic intAt _ _ _ _ _ _ _ heq1
          have hfr : completedCount [Event.flagsReset] = 0 := rfl
          rw [hfr] at hcc1 hbd1
          try dsimp only at hcc1 hpass1
          have hst1 : st1.stage = 2 := by
            have hp := hpass1 rfl
            try dsimp only at hp
            rw [h0] at hp
            simpa [STAGE_NONE, stageTable1] using hp
          rw [h0] at hcc1
          have hcc1e : completedCount es1 = 2 := by
            norm_num [STAGE_NONE] at hcc1
            omega
          have htd1e : teardownTrace es1 = [] := by
            simpa [teardownTrace] using htd1
          split at h
          next st2 es2 e heq2 =>
            obtain ⟨⟨t2, ht2⟩, htd2, _, _, _, hcc2, hbd2, _, _, _⟩ :=
              runStages_basic intAt _ _ _ _ _ _ _ heq2
            rw [completedCount_append] at hcc2 hbd2
            rw [autoAdjust_snd_completedCount, autoAdjust_fst_stage, hst1, hcc1e] at hcc2
            rw [autoAdjust_snd_completedCount, hcc1e] at hbd2
            simp only [stageTable2, List.length_cons, List.length_nil] at hbd2
            have hst2 : st2.stage ≤ 11 := by omega
            rw [stopConn_spec st2 hst2] at h
            simp only [Prod.mk.injEq] at h
            obtain ⟨rfl, rfl, rfl⟩ := h
            have hcc : completedCount es2 = st2.stage := by omega
            have htd : teardownTrace es2 = [] := by
              rw [teardownTrace_append, htd1e, autoAdjust_snd_teardownTrace] at htd2
              simpa using htd2
            refine ⟨rfl, ?_, ?_⟩
            · rw [completedCount_append, completedCount_map_teardown, hcc]
              omega
            · rw [teardownTrace_append, completedCount_append, htd,
                  completedCount_map_teardown, teardownTrace_map_teardown, hcc]
              simp
          next st2 es2 heq2 =>
            exfalso
            apply hne
            simp only [Prod.mk.injEq] at h
            exact h.2.2.symm

/-! ### Claims C1, C5, C10 -/

/-- Claim C1: for every execution in which start() returns a nonzero error
(whatever stage the failure occurred at, including the pre-stage
configuration failures), start() has invoked the stop/unwind path before
returning: on return the current stage equals None, and the teardown
operations performed are exactly the matching teardown operations of the
completed stages, each invoked exactly once, in exact reverse order of the
stages' initialization — the caller never observes a partially-established
session. -/
theorem start_failure_unwinds (st0 : ConnState) (info : SERVER_INFORMATION)
    (cfg : STREAM_CONFIGURATION) (oracle : CONNECTION_ORACLE) (intAt : Option Nat)
    (h0 : st0.stage = STAGE_NONE)
    (herr : (LiStartConnection st0 info cfg oracle intAt).2.2 ≠ 0) :
    (LiStartConnection st0 info cfg oracle intAt).1.stage = STAGE_NONE ∧
    teardownTrace (LiStartConnection st0 info cfg oracle intAt).2.1 =
      expectedUnwind (completedCount (LiStartConnection st0 info cfg oracle intAt).2.1) ∧
    (teardownTrace (LiStartConnection st0 info cfg oracle intAt).2.1).Nodup := by
  obtain ⟨h1, h2, h3⟩ := start_spec_fail st0 info cfg oracle intAt
    (LiStartConnection st0 info cfg oracle intAt).1
    (LiStartConnection st0 info cfg oracle intAt).2.1
    (LiStartConnection st0 info cfg oracle intAt).2.2 h0 rfl herr
  refine ⟨h1, h3, ?_⟩
  rw [h3]
  exact expectedUnwind_nodup _ h2

theorem start_failure_unwinds_witness :
    testState.stage = STAGE_NONE ∧
    (LiStartConnection testState testInfo (testConfig 1024 STREAM_CFG_LOCAL)
        vfOracle none).2.2 ≠ 0 ∧
    ((LiStartConnection testState testInfo (testConfig 1024 STREAM_CFG_LOCAL)
        vfOracle none).1.stage = STAGE_NONE ∧
     teardownTrace (LiStartConnection testState testInfo (testConfig 1024 STREAM_CFG_LOCAL)
        vfOracle none).2.1 =
       expectedUnwind (completedCount (LiStartConnection testState testInfo
         (testConfig 1024 STREAM_CFG_LOCAL) vfOracle none).2.1) ∧
     (teardownTrace (LiStartConnection testState testInfo (testConfig 1024 STREAM_CFG_LOCAL)
        vfOracle none).2.1).Nodup) :=
  ⟨rfl, by decide,
   start_failure_unwinds testState testInfo (testConfig 1024 STREAM_CFG_LOCAL) vfOracle none
     rfl (by decide)⟩

/-- Claim C10: if start() fails during pre-stage configuration validation —
the rounded packet size is zero, or the application version string is
malformed — then no caller callback of any kind is invoked, both causes
return the same error code `-1`, and the unwind still runs: the duplicated
address string is freed and the stage remains None on return. -/
theorem prestage_failure_silent (st0 : ConnState) (info : SERVER_INFORMATION)
    (cfg : STREAM_CONFIGURATION) (oracle : CONNECTION_ORACLE) (intAt : Option Nat)
    (h0 : st0.stage = STAGE_NONE)
    (hpre : roundPacketSize cfg.packetSize = 0 ∨ info.serverInfoAppVersion = none) :
    (LiStartConnection st0 info cfg oracle intAt).2.2 = -1 ∧
    callerTrace (LiStartConnection st0 info cfg oracle intAt).2.1 = [] ∧
    (LiStartConnection st0 info cfg oracle intAt).2.1 = [] ∧
    (LiStartConnection st0 info cfg oracle intAt).1.remoteAddrString = none ∧
    (LiStartConnection st0 info cfg oracle intAt).1.stage = STAGE_NONE := by
  obtain ⟨ha, hb, hc, hd, _, _⟩ := start_prestage_fail st0 info cfg oracle intAt h0 hpre
  refine ⟨ha, ?_, hb, hd, hc⟩
  rw [hb]
  rfl

theorem prestage_failure_silent_witness :
    ((LiStartConnection testState testInfo (testConfig 8 STREAM_CFG_LOCAL) okOracle none).2.2
        = -1 ∧
     callerTrace (LiStartConnection testState testInfo (testConfig 8 STREAM_CFG_LOCAL)
        okOracle none).2.1 = [] ∧
     (LiStartConnection testState testInfo (testConfig 8 STREAM_CFG_LOCAL) okOracle none).2.1
        = [] ∧
     (LiStartConnection testState testInfo (testConfig 8 STREAM_CFG_LOCAL)
        okOracle none).1.remoteAddrString = none ∧
     (LiStartConnection testState testInfo (testConfig 8 STREAM_CFG_LOCAL)
        okOracle none).1.stage = STAGE_NONE) ∧
    ((LiStartConnection testState badVersionInfo (testConfig 1024 STREAM_CFG_LOCAL)
        okOracle none).2.2 = -1 ∧
     callerTrace (LiStartConnection testState badVersionInfo (testConfig 1024 STREAM_CFG_LOCAL)
        okOracle none).2.1 = [] ∧
     (LiStartConnection testState badVersionInfo (testConfig 1024 STREAM_CFG_LOCAL)
        okOracle none).2.1 = [] ∧
     (LiStartConnection testState badVersionInfo (testConfig 1024 STREAM_CFG_LOCAL)
        okOracle none).1.remoteAddrString = none ∧
     (LiStartConnection testState badVersionInfo (testConfig 1024 STREAM_CFG_LOCAL)
        okOracle none).1.stage = STAGE_NONE) :=
  ⟨prestage_failure_silent testState testInfo (testConfig 8 STREAM_CFG_LOCAL) okOracle none
     rfl (Or.inl (by decide)),
   prestage_failure_silent testState badVersionInfo (testConfig 1024 STREAM_CFG_LOCAL)
     okOracle none rfl (Or.inr rfl)⟩

/-- Claim C5: packet-size normalization.  Any input packet size from 1 to 15
makes start() fail with the invalid-configuration error (`-1`) before any
stage runs (empty trace); input 16 rounds to 16; input 1000 rounds to 992;
and input 1025 under the remote outcome of auto mode ends at 1024 (rounded
down to the nearest multiple of 16, with the 1024-byte cap applying in the
remote case). -/
theorem packet_size_normalization :
    (∀ (st0 : ConnState) (info : SERVER_INFORMATION) (cfg : STREAM_CONFIGURATION)
        (oracle : CONNECTION_ORACLE) (intAt : Option Nat),
        st0.stage = STAGE_NONE → 1 ≤ cfg.packetSize → cfg.packetSize ≤ 15 →
        (LiStartConnection st0 info cfg oracle intAt).2.2 = -1 ∧
        (LiStartConnection st0 info cfg oracle intAt).2.1 = []) ∧
    roundPacketSize 16 = 16 ∧
    roundPacketSize 1000 = 992 ∧
    (LiStartConnection testState testInfo (testConfig 1025 STREAM_CFG_AUTO)
        remoteOracle none).1.streamConfig.packetSize = 1024 := by
  refine ⟨?_, by decide, by decide, by decide⟩
  intro st0 info cfg oracle intAt h0 hlo hhi
  have hr0 : roundPacketSize cfg.packetSize = 0 := by
    rcases cfg with ⟨p, m, b⟩
    simp only at hlo hhi
    show roundPacketSize p = 0
    interval_cases p <;> decide
  obtain ⟨ha, hb, _, _, _, _⟩ := start_prestage_fail st0 info cfg oracle intAt h0 (Or.inl hr0)
  exact ⟨ha, hb⟩

theorem packet_size_normalization_witness :
    (LiStartConnection testState testInfo (testConfig 8 STREAM_CFG_LOCAL) okOracle none).2.2
      = -1 ∧
    (LiStartConnection testState testInfo (testConfig 8 STREAM_CFG_LOCAL) okOracle none).2.1
      = [] :=
  packet_size_normalization.1 testState testInfo (testConfig 8 STREAM_CFG_LOCAL) okOracle none
    rfl (by decide) (by decide)

/-! ### Claim C8 -/

theorem maybeInterrupt_snd (intAt : Option Nat) (k : Nat) (st : ConnState) (es : List Event) :
    ∃ x, (maybeInterrupt intAt k st es).2 = es ++ x := by
  rw [maybeInterrupt]
  split
  · exact ⟨[Event.interruptRequested], rfl⟩
  · exact ⟨[], by simp⟩

/-- Claim C8 (amended): start() resets the interrupted and terminated flags
only after copying the stream configuration, recording the bitrate,
duplicating the address string, rounding the packet size, checking the
rounded size for zero, and parsing the version string — immediately before
the first stage (the `flagsReset` marker is the first event of every run
that passes validation); consequently, on a pre-stage validation failure —
a rounded packet size of zero or a malformed app-version string — the
flags have not been reset for this attempt: start() returns -1, no reset
occurs, and the unwind path sets both flags instead. -/
theorem flags_reset_spec :
    (∀ (st0 : ConnState) (info : SERVER_INFORMATION) (cfg : STREAM_CONFIGURATION)
        (oracle : CONNECTION_ORACLE) (intAt : Option Nat)
        (quad : Int × Int × Int × Int),
        roundPacketSize cfg.packetSize ≠ 0 →
        info.serverInfoAppVersion = some quad →
        (LiStartConnection st0 info cfg oracle intAt).2.1.head? = some Event.flagsReset) ∧
    (∀ (st0 : ConnState) (info : SERVER_INFORMATION) (cfg : STREAM_CONFIGURATION)
        (oracle : CONNECTION_ORACLE) (intAt : Option Nat),
        st0.stage = STAGE_NONE →
        roundPacketSize cfg.packetSize = 0 ∨ info.serverInfoAppVersion = none →
        (LiStartConnection st0 info cfg oracle intAt).2.2 = -1 ∧
        Event.flagsReset ∉ (LiStartConnection st0 info cfg oracle intAt).2.1 ∧
        (LiStartConnection st0 info cfg oracle intAt).1.alreadyTerminated = true ∧
        (LiStartConnection st0 info cfg oracle intAt).1.connectionInterrupted = true) := by
  constructor
  · intro st0 info cfg oracle intAt quad hps hv
    rcases hr : LiStartConnection st0 info cfg oracle intAt with ⟨st', es', err⟩
    show es'.head? = some Event.flagsReset
    simp only [LiStartConnection] at hr
    rw [if_neg hps] at hr
    split at hr
    next heqv =>
      rw [hv] at heqv
      exact Option.noConfusion heqv
    next quad2 heqv =>
      split at hr
      next st1 es1 e heq1 =>
        obtain ⟨⟨t1, ht1⟩, _, _, _, _, _, _, _, _, _⟩ :=
          runStages_basic intAt _ _ _ _ _ _ _ heq1
        simp only [Prod.mk.injEq] at hr
        obtain ⟨rfl, rfl, rfl⟩ := hr
        rw [ht1]
        simp
      next st1 es1 heq1 =>
        obtain ⟨⟨t1, ht1⟩, _, _, _, _, _, _, _, _, _⟩ :=
          runStages_basic intAt _ _ _ _ _ _ _ heq1
        split at hr
        next st2 es2 e heq2 =>
          obtain ⟨⟨t2, ht2⟩, _, _, _, _, _, _, _, _, _⟩ :=
            runStages_basic intAt _ _ _ _ _ _ _ heq2
          simp only [Prod.mk.injEq] at hr
          obtain ⟨rfl, rfl, rfl⟩ := hr
          rw [ht2, ht1]
          simp
        next st2 es2 heq2 =>
          obtain ⟨⟨t2, ht2⟩, _, _, _, _, _, _, _, _, _⟩ :=
            runStages_basic intAt _ _ _ _ _ _ _ heq2
          obtain ⟨x, hx⟩ := maybeInterrupt_snd intAt 11 st2 es2
          simp only [Prod.mk.injEq] at hr
          obtain ⟨rfl, rfl, rfl⟩ := hr
          rw [hx, ht2, ht1]
          simp
  · intro st0 info cfg oracle intAt h0 hpre
    obtain ⟨ha, hb, _, _, he, hf⟩ := start_prestage_fail st0 info cfg oracle intAt h0 hpre
    refine ⟨ha, ?_, he, hf⟩
    rw [hb]
    simp

theorem flags_reset_spec_witness :
    (LiStartConnection testState testInfo (testConfig 1024 STREAM_CFG_LOCAL)
        okOracle none).2.1.head? = some Event.flagsReset ∧
    ((LiStartConnection testState testInfo (testConfig 8 STREAM_CFG_LOCAL) okOracle none).2.2
        = -1 ∧
     Event.flagsReset ∉ (LiStartConnection testState testInfo (testConfig 8 STREAM_CFG_LOCAL)
        okOracle none).2.1 ∧
     (LiStartConnection testState testInfo (testConfig 8 STREAM_CFG_LOCAL)
        okOracle none).1.alreadyTerminated = true ∧
     (LiStartConnection testState testInfo (testConfig 8 STREAM_CFG_LOCAL)
        okOracle none).1.connectionInterrupted = true) ∧
    ((LiStartConnection testState badVersionInfo (testConfig 1024 STREAM_CFG_LOCAL)
        okOracle none).2.2 = -1 ∧
     Event.flagsReset ∉ (LiStartConnection testState badVersionInfo
        (testConfig 1024 STREAM_CFG_LOCAL) okOracle none).2.1 ∧
     (LiStartConnection testState badVersionInfo (testConfig 1024 STREAM_CFG_LOCAL)
        okOracle none).1.alreadyTerminated = true ∧
     (LiStartConnection testState badVersionInfo (testConfig 1024 STREAM_CFG_LOCAL)
        okOracle none).1.connectionInterrupted = true) :=
  ⟨flags_reset_spec.1 testState testInfo (testConfig 1024 STREAM_CFG_LOCAL) okOracle none
     (7, 1, 450, 0) (by decide) rfl,
   flags_reset_spec.2 testState testInfo (testConfig 8 STREAM_CFG_LOCAL) okOracle none rfl
     (Or.inl (by decide)),
   flags_reset_spec.2 testState badVersionInfo (testConfig 1024 STREAM_CFG_LOCAL) okOracle
     none rfl (Or.inr rfl)⟩

/-- Claim C8 counterexample: the claim says that on every exit of start(),
including the invalid-configuration failures, the flags have been reset for
this session attempt.  In the code the reset happens only after the
packet-size and version checks: with packet size 8, and likewise with a
malformed app-version string, the run exits with `-1`, its trace is empty
(in particular no `flagsReset` transition occurred), and a terminated flag
inherited from a previous session is never cleared — the unwind sets both
flags instead. -/
theorem flags_reset_counterexample :
    (LiStartConnection staleState testInfo (testConfig 8 STREAM_CFG_LOCAL) okOracle none).2.1
      = [] ∧
    Event.flagsReset ∉ (LiStartConnection staleState testInfo (testConfig 8 STREAM_CFG_LOCAL)
      okOracle none).2.1 ∧
    (LiStartConnection staleState testInfo (testConfig 8 STREAM_CFG_LOCAL)
      okOracle none).1.alreadyTerminated = true ∧
    (LiStartConnection staleState testInfo (testConfig 8 STREAM_CFG_LOCAL)
      okOracle none).2.2 = -1 ∧
    (LiStartConnection staleState badVersionInfo (testConfig 1024 STREAM_CFG_LOCAL)
      okOracle none).2.1 = [] ∧
    Event.flagsReset ∉ (LiStartConnection staleState badVersionInfo
      (testConfig 1024 STREAM_CFG_LOCAL) okOracle none).2.1 ∧
    (LiStartConnection staleState badVersionInfo (testConfig 1024 STREAM_CFG_LOCAL)
      okOracle none).1.alreadyTerminated = true ∧
    (LiStartConnection staleState badVersionInfo (testConfig 1024 STREAM_CFG_LOCAL)
      okOracle none).2.2 = -1 := by
  decide

/-! ### Claim C4 -/

@[simp] theorem autoAdjust_snd_callerTrace (b : Bool) (st : ConnState) :
    callerTrace (autoAdjust b st).2 = [] := by
  rw [autoAdjust]
  split
  · split <;> rfl
  · rfl

@[simp] theorem filter_isCallerEvt_autoAdjust (b : Bool) (st : ConnState) :
    List.filter isCallerEvt (autoAdjust b st).2 = [] :=
  autoAdjust_snd_callerTrace b st

/-- Claim C4 (amended): in the end-to-end success scenario (valid server
info and configuration, every collaborator call succeeding, no interrupt),
start() fires the eleven stage-complete callbacks — one per stage from
PlatformInit (1) through InputStreamStart (11), the `None` ordinal has no
stage block — in strict ascending stage order, each preceded by its
stageStarting callback, then emits two opposite-displacement
pointer-movement events, (1,1) then (-1,-1), separated by a short pause,
then invokes connectionStarted() exactly once, and returns 0 with stage ==
InputStreamStart. -/
theorem success_scenario (st0 : ConnState) (info : SERVER_INFORMATION)
    (cfg : STREAM_CONFIGURATION) (oracle : CONNECTION_ORACLE)
    (quad : Int × Int × Int × Int)
    (h0 : st0.stage = STAGE_NONE)
    (hps : roundPacketSize cfg.packetSize ≠ 0)
    (hv : info.serverInfoAppVersion = some quad)
    (ho1 : oracle.initializePlatform = 0) (ho2 : oracle.resolveHostName = 0)
    (ho3 : oracle.performRtspHandshake = 0) (ho4 : oracle.initializeControlStream = 0)
    (ho5 : oracle.startControlStream = 0) (ho6 : oracle.startVideoStream = 0)
    (ho7 : oracle.startAudioStream = 0) (ho8 : oracle.startInputStream = 0) :
    callerTrace (LiStartConnection st0 info cfg oracle none).2.1 =
      [Event.stageStarting 1, Event.stageComplete 1,
       Event.stageStarting 2, Event.stageComplete 2,
       Event.stageStarting 3, Event.stageComplete 3,
       Event.stageStarting 4, Event.stageComplete 4,
       Event.stageStarting 5, Event.stageComplete 5,
       Event.stageStarting 6, Event.stageComplete 6,
       Event.stageStarting 7, Event.stageComplete 7,
       Event.stageStarting 8, Event.stageComplete 8,
       Event.stageStarting 9, Event.stageComplete 9,
       Event.stageStarting 10, Event.stageComplete 10,
       Event.stageStarting 11, Event.stageComplete 11,
       Event.mouseMove 1 1, Event.sleepMs 10, Event.mouseMove (-1) (-1), Event.sleepMs 10,
       Event.connectionStarted] ∧
    (LiStartConnection st0 info cfg oracle none).2.2 = 0 ∧
    (LiStartConnection st0 info cfg oracle none).1.stage = STAGE_INPUT_STREAM_START := by
  rcases hr : LiStartConnection st0 info cfg oracle none with ⟨st', es', err⟩
  simp only [LiStartConnection] at hr
  rw [if_neg hps] at hr
  split at hr
  next heqv =>
    rw [hv] at heqv
    exact Option.noConfusion heqv
  next quad2 heqv =>
    split at hr
    next st1 es1 e heq1 =>
      exfalso
      simp [runStages, maybeInterrupt_none, stageTable1, ho1, ho2] at heq1
    next st1 es1 heq1 =>
      simp [runStages, maybeInterrupt_none, stageTable1, ho1, ho2] at heq1
      obtain ⟨rfl, rfl⟩ := heq1
      split at hr
      next st2 es2 e heq2 =>
        exfalso
        simp [runStages, maybeInterrupt_none, stageTable2,
              ho3, ho4, ho5, ho6, ho7, ho8] at heq2
      next st2 es2 heq2 =>
        simp [runStages, maybeInterrupt_none, stageTable2,
              ho3, ho4, ho5, ho6, ho7, ho8] at heq2
        obtain ⟨rfl, rfl⟩ := heq2
        rw [maybeInterrupt_none] at hr
        simp only [Prod.mk.injEq] at hr
        obtain ⟨rfl, rfl, rfl⟩ := hr
        refine ⟨?_, rfl, ?_⟩
        · simp [callerTrace, isCallerEvt, STAGE_PLATFORM_INIT, STAGE_NAME_RESOLUTION,
                STAGE_RTSP_HANDSHAKE, STAGE_CONTROL_STREAM_INIT, STAGE_VIDEO_STREAM_INIT,
                STAGE_AUDIO_STREAM_INIT, STAGE_INPUT_STREAM_INIT, STAGE_CONTROL_STREAM_START,
                STAGE_VIDEO_STREAM_START, STAGE_AUDIO_STREAM_START, STAGE_INPUT_STREAM_START]
        · simp [h0, STAGE_NONE, STAGE_INPUT_STREAM_START]

/-- Claim C4 counterexample: the claim says the success scenario fires all
twelve stage-complete callbacks; the success run fires exactly eleven (the
twelve-ordinal stage enumeration includes `None`, which has no stage
block). -/
theorem success_scenario_counterexample :
    completedCount (LiStartConnection testState testInfo
      (testConfig 1024 STREAM_CFG_LOCAL) okOracle none).2.1 ≠ 12 ∧
    completedCount (LiStartConnection testState testInfo
      (testConfig 1024 STREAM_CFG_LOCAL) okOracle none).2.1 = 11 := by
  decide

theorem success_scenario_witness :
    callerTrace (LiStartConnection testState testInfo (testConfig 1024 STREAM_CFG_LOCAL)
        okOracle none).2.1 =
      [Event.stageStarting 1, Event.stageComplete 1,
       Event.stageStarting 2, Event.stageComplete 2,
       Event.stageStarting 3, Event.stageComplete 3,
       Event.stageStarting 4, Event.stageComplete 4,
       Event.stageStarting 5, Event.stageComplete 5,
       Event.stageStarting 6, Event.stageComplete 6,
       Event.stageStarting 7, Event.stageComplete 7,
       Event.stageStarting 8, Event.stageComplete 8,
       Event.stageStarting 9, Event.stageComplete 9,
       Event.stageStarting 10, Event.stageComplete 10,
       Event.stageStarting 11, Event.stageComplete 11,
       Event.mouseMove 1 1, Event.sleepMs 10, Event.mouseMove (-1) (-1), Event.sleepMs 10,
       Event.connectionStarted] ∧
    (LiStartConnection testState testInfo (testConfig 1024 STREAM_CFG_LOCAL)
        okOracle none).2.2 = 0 ∧
    (LiStartConnection testState testInfo (testConfig 1024 STREAM_CFG_LOCAL)
        okOracle none).1.stage = STAGE_INPUT_STREAM_START :=
  success_scenario testState testInfo (testConfig 1024 STREAM_CFG_LOCAL) okOracle
    (7, 1, 450, 0) rfl (by decide) rfl rfl rfl rfl rfl rfl rfl rfl rfl

/-! ### Claim C6 -/

@[simp] theorem maybeInterrupt_fst_streamConfig (intAt : Option Nat) (k : Nat)
    (st : ConnState) (es : List Event) :
    (maybeInterrupt intAt k st es).1.streamConfig = st.streamConfig := by
  rw [maybeInterrupt]
  split <;> rfl

theorem runStages_cons_trace2 (intAt : Option Nat) (k sid : Nat) (oerr : Option Int)
    (rest : List (Nat × Option Int)) (st : ConnState) (es : List Event)
    (st' : ConnState) (es' : List Event) (oe : Option Int)
    (hI : intAt = none)
    (h : runStages intAt k ((sid, oerr) :: rest) st es = (st', es', oe)) :
    ∃ t, es' = es ++ Event.stageStarting sid :: t := by
  obtain ⟨t, ht⟩ := runStages_cons_trace intAt k sid oerr rest st es hI
  rw [h] at ht
  exact ⟨t, ht⟩

/-- Claim C6: when the streaming-mode hint is auto, start() resolves it to
local exactly when the resolved remote address is in a private network
range and to remote otherwise; this resolution happens only after name
resolution succeeds (on resolution failure the hint stays unresolved and no
resolution marker is emitted) and before the RTSP handshake begins; and the
1024-byte packet-size cap is applied in the remote outcome only — the local
outcome leaves the rounded packet size unchanged. -/
theorem auto_mode_resolution (st0 : ConnState) (info : SERVER_INFORMATION)
    (cfg : STREAM_CONFIGURATION) (oracle : CONNECTION_ORACLE)
    (quad : Int × Int × Int × Int)
    (h0 : st0.stage = STAGE_NONE)
    (hps : roundPacketSize cfg.packetSize ≠ 0)
    (hv : info.serverInfoAppVersion = some quad)
    (hauto : cfg.streamingRemotely = STREAM_CFG_AUTO)
    (hp1 : oracle.initializePlatform = 0) :
    (oracle.resolveHostName = 0 →
      (∃ t, resTrace (LiStartConnection st0 info cfg oracle none).2.1 =
        [Event.stageStarting STAGE_PLATFORM_INIT, Event.stageComplete STAGE_PLATFORM_INIT,
         Event.stageStarting STAGE_NAME_RESOLUTION, Event.stageComplete STAGE_NAME_RESOLUTION,
         Event.modeResolved (if oracle.isPrivateNetworkAddress = true then STREAM_CFG_LOCAL
           else STREAM_CFG_REMOTE),
         Event.stageStarting STAGE_RTSP_HANDSHAKE] ++ t) ∧
      (LiStartConnection st0 info cfg oracle none).1.streamConfig.streamingRemotely =
        (if oracle.isPrivateNetworkAddress = true then STREAM_CFG_LOCAL
         else STREAM_CFG_REMOTE) ∧
      (LiStartConnection st0 info cfg oracle none).1.streamConfig.packetSize =
        (if oracle.isPrivateNetworkAddress = false ∧ 1024 < roundPacketSize cfg.packetSize
         then 1024 else roundPacketSize cfg.packetSize)) ∧
    (oracle.resolveHostName ≠ 0 →
      (LiStartConnection st0 info cfg oracle none).1.streamConfig.streamingRemotely =
        STREAM_CFG_AUTO ∧
      modeEventCount (LiStartConnection st0 info cfg oracle none).2.1 = 0) := by
  rcases hr : LiStartConnection st0 info cfg oracle none with ⟨st', es', err⟩
  simp only [LiStartConnection] at hr
  rw [if_neg hps] at hr
  split at hr
  next heqv =>
    rw [hv] at heqv
    exact Option.noConfusion heqv
  next quad2 heqv =>
    constructor
    · intro hres
      split at hr
      next st1 es1 e heq1 =>
        exfalso
        simp [runStages, maybeInterrupt_none, stageTable1, hp1, hres] at heq1
      next st1 es1 heq1 =>
        simp [runStages, maybeInterrupt_none, stageTable1, hp1, hres] at heq1
        obtain ⟨rfl, rfl⟩ := heq1
        rcases hpriv : oracle.isPrivateNetworkAddress with _ | _ <;>
          simp only [autoAdjust, hpriv, hauto, reduceIte, Bool.false_eq_true, if_false] at hr
        · simp only [stageTable2] at hr
          split at hr
          next st2 es2 e heq2 =>
            obtain ⟨t, ht⟩ := runStages_cons_trace2 _ _ _ _ _ _ _ _ _ _ rfl heq2
            obtain ⟨_, _, _, hsc2, _, _, _, _, _, _⟩ :=
              runStages_basic none _ _ _ _ _ _ _ heq2
            simp only [Prod.mk.injEq] at hr
            obtain ⟨rfl, rfl, rfl⟩ := hr
            refine ⟨⟨resTrace (t ++ (LiStopConnection st2).2), ?_⟩, ?_, ?_⟩
            · rw [resTrace_append, ht]
              simp [resTrace, isResEvt, hpriv]
            · rw [stopConn_streamConfig, hsc2]
              by_cases hcap : 1024 < roundPacketSize cfg.packetSize <;> simp [hpriv, hcap]
            · rw [stopConn_streamConfig, hsc2]
              by_cases hcap : 1024 < roundPacketSize cfg.packetSize <;>
                simp [hpriv, hcap]
          next st2 es2 heq2 =>
            obtain ⟨t, ht⟩ := runStages_cons_trace2 _ _ _ _ _ _ _ _ _ _ rfl heq2
            obtain ⟨_, _, _, hsc2, _, _, _, _, _, _⟩ :=
              runStages_basic none _ _ _ _ _ _ _ heq2
            rw [maybeInterrupt_none] at hr
            simp only [Prod.mk.injEq] at hr
            obtain ⟨rfl, rfl, rfl⟩ := hr
            refine ⟨⟨resTrace (t ++ [Event.mouseMove 1 1, Event.sleepMs 10,
                Event.mouseMove (-1) (-1), Event.sleepMs 10, Event.connectionStarted]), ?_⟩,
              ?_, ?_⟩
            · rw [resTrace_append, ht]
              simp [resTrace, isResEvt, hpriv]
            · rw [hsc2]
              by_cases hcap : 1024 < roundPacketSize cfg.packetSize <;> simp [hpriv, hcap]
            · rw [hsc2]
              by_cases hcap : 1024 < roundPacketSize cfg.packetSize <;>
                simp [hpriv, hcap]
        · simp only [stageTable2] at hr
          split at hr
          next st2 es2 e heq2 =>
            obtain ⟨t, ht⟩ := runStages_cons_trace2 _ _ _ _ _ _ _ _ _ _ rfl heq2
            obtain ⟨_, _, _, hsc2, _, _, _, _, _, _⟩ :=
              runStages_basic none _ _ _ _ _ _ _ heq2
            simp only [Prod.mk.injEq] at hr
            obtain ⟨rfl, rfl, rfl⟩ := hr
            refine ⟨⟨resTrace (t ++ (LiStopConnection st2).2), ?_⟩, ?_, ?_⟩
            · rw [resTrace_append, ht]
              simp [resTrace, isResEvt, hpriv]
            · rw [stopConn_streamConfig, hsc2]
              by_cases hcap : 1024 < roundPacketSize cfg.packetSize <;> simp [hpriv, hcap]
            · rw [stopConn_streamConfig, hsc2]
              by_cases hcap : 1024 < roundPacketSize cfg.packetSize <;> simp [hpriv, hcap]
          next st2 es2 heq2 =>
            obtain ⟨t, ht⟩ := runStages_cons_trace2 _ _ _ _ _ _ _ _ _ _ rfl heq2
            obtain ⟨_, _, _, hsc2, _, _, _, _, _, _⟩ :=
              runStages_basic none _ _ _ _ _ _ _ heq2
            rw [maybeInterrupt_none] at hr
            simp only [Prod.mk.injEq] at hr
            obtain ⟨rfl, rfl, rfl⟩ := hr
            refine ⟨⟨resTrace (t ++ [Event.mouseMove 1 1, Event.sleepMs 10,
                Event.mouseMove (-1) (-1), Event.sleepMs 10, Event.connectionStarted]), ?_⟩,
              ?_, ?_⟩
            · rw [resTrace_append, ht]
              simp [resTrace, isResEvt, hpriv]
            · rw [hsc2]
              by_cases hcap : 1024 < roundPacketSize cfg.packetSize <;> simp [hpriv, hcap]
            · rw [hsc2]
              by_cases hcap : 1024 < roundPacketSize cfg.packetSize <;> simp [hpriv, hcap]
    · intro hres
      split at hr
      next st1 es1 e heq1 =>
        simp [runStages, maybeInterrupt_none, stageTable1, hp1, hres] at heq1
        obtain ⟨rfl, rfl, rfl⟩ := heq1
        simp only [Prod.mk.injEq] at hr
        obtain ⟨rfl, rfl, rfl⟩ := hr
        constructor
        · rw [stopConn_streamConfig]
          exact hauto
        · rw [modeEventCount_append, stopConn_modeEventCount]
          rfl
      next st1 es1 heq1 =>
        exfalso
        simp [runStages, maybeInterrupt_none, stageTable1, hp1, hres] at heq1

theorem auto_mode_resolution_witness :
    (LiStartConnection testState testInfo (testConfig 2000 STREAM_CFG_AUTO)
        remoteOracle none).1.streamConfig.streamingRemotely = STREAM_CFG_REMOTE ∧
    (LiStartConnection testState testInfo (testConfig 2000 STREAM_CFG_AUTO)
        remoteOracle none).1.streamConfig.packetSize = 1024 := by
  have h := (auto_mode_resolution testState testInfo (testConfig 2000 STREAM_CFG_AUTO)
    remoteOracle (7, 1, 450, 0) rfl (by decide) rfl rfl rfl).1 rfl
  obtain ⟨_, h2, h3⟩ := h
  constructor
  · rw [h2]
    decide
  · rw [h3]
    decide

/-! ### Claim C7 -/

@[simp] theorem stopStep_snd_completedCount (v : Nat) (op : Option TeardownOp)
    (r : ConnState × List Event) :
    completedCount (stopStep v op r).2 = completedCount r.2 := by
  obtain ⟨st, es⟩ := r
  simp only [stopStep]
  split
  · cases op <;> simp [completedCount, isStageCompleteEvt]
  · rfl

@[simp] theorem stopConn_completedCount (st : ConnState) :
    completedCount (LiStopConnection st).2 = 0 := by
  simp [LiStopConnection]
  rfl

theorem blocksWF_stageTable1 (oracle : CONNECTION_ORACLE) : blocksWF (stageTable1 oracle) := by
  intro p hp hnone
  simp only [stageTable1] at hp
  fin_cases hp <;> exact Option.noConfusion hnone

theorem blocksWF_stageTable2 (oracle : CONNECTION_ORACLE) : blocksWF (stageTable2 oracle) := by
  intro p hp hnone
  simp only [stageTable2] at hp
  fin_cases hp <;> first
    | exact Option.noConfusion hnone
    | decide

theorem hasFallible_drop_stageTable1 (oracle : CONNECTION_ORACLE) (d : Nat) (hd : d ≤ 1) :
    hasFallible (List.drop d (stageTable1 oracle)) = true := by
  interval_cases d <;> simp [stageTable1, hasFallible]

theorem hasFallible_drop_stageTable2 (oracle : CONNECTION_ORACLE) (d : Nat) (hd : d ≤ 8) :
    hasFallible (List.drop d (stageTable2 oracle)) = true := by
  interval_cases d <;> simp [stageTable2, hasFallible]

/-- Claim C7 (amended): only the fallible collaborator calls observe the
Interrupt Signal (the gating lives in the collaborators, modelled from the
spec; Connection.c itself never reads the flag during start, and the flag
reset inside start discards an interrupt requested before that point).
Once the signal is set at any point of the stage sequence, no fallible
stage completes after the request, and start() returns a nonzero error with
a full unwind leaving stage None; an interrupt arriving right after the
flag reset and before the first stage makes the very first collaborator
call fail, so no stage completes at all. -/
theorem interrupt_gates_fallible_stages (st0 : ConnState) (info : SERVER_INFORMATION)
    (cfg : STREAM_CONFIGURATION) (oracle : CONNECTION_ORACLE) (k : Nat)
    (h0 : st0.stage = STAGE_NONE) (hk : k ≤ 10) :
    (LiStartConnection st0 info cfg oracle (some k)).2.2 ≠ 0 ∧
    (LiStartConnection st0 info cfg oracle (some k)).1.stage = STAGE_NONE ∧
    noFCAfter false (LiStartConnection st0 info cfg oracle (some k)).2.1 = true ∧
    (k = 0 → completedCount (LiStartConnection st0 info cfg oracle (some k)).2.1 = 0) := by
  rcases hr : LiStartConnection st0 info cfg oracle (some k) with ⟨st', es', err⟩
  have main : err ≠ 0 ∧ noFCAfter false es' = true ∧
      (k = 0 → completedCount es' = 0) := by
    have hr2 := hr
    simp only [LiStartConnection] at hr2
    by_cases hps : roundPacketSize cfg.packetSize = 0
    · rw [if_pos hps] at hr2
      simp only [Prod.mk.injEq] at hr2
      obtain ⟨rfl, rfl, rfl⟩ := hr2
      refine ⟨by norm_num, ?_, fun _ => by simp⟩
      apply noFCAfter_of_not_hasIR
      simp
    · rw [if_neg hps] at hr2
      split at hr2
      next heqv =>
        simp only [Prod.mk.injEq] at hr2
        obtain ⟨rfl, rfl, rfl⟩ := hr2
        refine ⟨by norm_num, ?_, fun _ => by simp⟩
        apply noFCAfter_of_not_hasIR
        simp
      next quad2 heqv =>
        by_cases hk0 : k = 0
        · subst hk0
          split at hr2
          next st1 es1 e heq1 =>
            simp [runStages, maybeInterrupt, LiInterruptConnection, stageTable1,
                  interruptedErrorCode, STAGE_PLATFORM_INIT, STAGE_NAME_RESOLUTION] at heq1
            obtain ⟨rfl, rfl, rfl⟩ := heq1
            simp only [Prod.mk.injEq] at hr2
            obtain ⟨rfl, rfl, rfl⟩ := hr2
            refine ⟨by norm_num, ?_, fun _ => ?_⟩
            · rw [noFCAfter_append, noFCAfter_of_fcCount_zero _ (stopConn_fcCount _)]
              decide
            · rw [completedCount_append, stopConn_completedCount]
              decide
          next st1 es1 heq1 =>
            exfalso
            simp [runStages, maybeInterrupt, LiInterruptConnection, stageTable1,
                  interruptedErrorCode, STAGE_PLATFORM_INIT, STAGE_NAME_RESOLUTION] at heq1
        · by_cases hk1 : k ≤ 1
          · split at hr2
            next st1 es1 e heq1 =>
              obtain ⟨hA, _⟩ := runStages_arrival (some k) (stageTable1 oracle) 0 _ _ _ _ _ k
                (blocksWF_stageTable1 oracle) (by rfl) (by rfl) (Nat.zero_le k)
                (by simp [stageTable1]; omega) (by rfl) heq1
              obtain ⟨_, _, _, _, _, _, _, _, h9, _⟩ :=
                runStages_basic (some k) _ _ _ _ _ _ _ heq1
              simp only [Prod.mk.injEq] at hr2
              obtain ⟨rfl, rfl, rfl⟩ := hr2
              refine ⟨h9 e rfl, ?_, fun hk00 => absurd hk00 hk0⟩
              rw [noFCAfter_append, noFCAfter_of_fcCount_zero _ (stopConn_fcCount _), hA]
              rfl
            next st1 es1 heq1 =>
              exfalso
              obtain ⟨_, hB⟩ := runStages_arrival (some k) (stageTable1 oracle) 0 _ _ _ _ _ k
                (blocksWF_stageTable1 oracle) (by rfl) (by rfl) (Nat.zero_le k)
                (by simp [stageTable1]; omega) (by rfl) heq1
              have := hB (by simpa [Nat.sub_zero] using
                hasFallible_drop_stageTable1 oracle k (by omega))
              simp at this
          · have hnoarr1 : ∀ j, (some k : Option Nat) = some j →
                j < 0 ∨ 0 + (stageTable1 oracle).length ≤ j := by
              intro j hj
              injection hj with hj
              subst hj
              right
              simp [stageTable1]
              omega
            split at hr2
            next st1 es1 e heq1 =>
              obtain ⟨hIR1, _⟩ := runStages_noArrival (some k) _ _ _ _ _ _ _ hnoarr1 heq1
              obtain ⟨_, _, _, _, _, _, _, _, h9, _⟩ :=
                runStages_basic (some k) _ _ _ _ _ _ _ heq1
              simp only [Prod.mk.injEq] at hr2
              obtain ⟨rfl, rfl, rfl⟩ := hr2
              refine ⟨h9 e rfl, ?_, fun hk00 => absurd hk00 hk0⟩
              apply noFCAfter_of_not_hasIR
              rw [hasIR_append, hIR1, stopConn_hasIR]
              rfl
            next st1 es1 heq1 =>
              obtain ⟨hIR1, hFlag1⟩ := runStages_noArrival (some k) _ _ _ _ _ _ _ hnoarr1 heq1
              split at hr2
              next st2 es2 e heq2 =>
                obtain ⟨hA2, _⟩ := runStages_arrival (some k) (stageTable2 oracle) 2 _ _ _ _ _ k
                  (blocksWF_stageTable2 oracle)
                  (by rw [autoAdjust_fst_connectionInterrupted, hFlag1])
                  (by rfl) (by omega) (by simp [stageTable2]; omega)
                  (by rw [hasIR_append, hIR1, autoAdjust_snd_hasIR]; rfl) heq2
                obtain ⟨_, _, _, _, _, _, _, _, h9, _⟩ :=
                  runStages_basic (some k) _ _ _ _ _ _ _ heq2
                simp only [Prod.mk.injEq] at hr2
                obtain ⟨rfl, rfl, rfl⟩ := hr2
                refine ⟨h9 e rfl, ?_, fun hk00 => absurd hk00 hk0⟩
                rw [noFCAfter_append, noFCAfter_of_fcCount_zero _ (stopConn_fcCount _), hA2]
                rfl
              next st2 es2 heq2 =>
                exfalso
                obtain ⟨_, hB2⟩ := runStages_arrival (some k) (stageTable2 oracle) 2 _ _ _ _ _ k
                  (blocksWF_stageTable2 oracle)
                  (by rw [autoAdjust_fst_connectionInterrupted, hFlag1])
                  (by rfl) (by omega) (by simp [stageTable2]; omega)
                  (by rw [hasIR_append, hIR1, autoAdjust_snd_hasIR]; rfl) heq2
                have := hB2 (hasFallible_drop_stageTable2 oracle (k - 2) (by omega))
                simp at this
  obtain ⟨m1, m2, m3⟩ := main
  have hstage := (start_spec_fail st0 info cfg oracle (some k) st' es' err h0 hr m1).1
  exact ⟨m1, hstage, m2, m3⟩

theorem interrupt_gates_fallible_stages_witness :
    (LiStartConnection testState testInfo (testConfig 1024 STREAM_CFG_LOCAL) okOracle
        (some 4)).2.2 ≠ 0 ∧
    (LiStartConnection testState testInfo (testConfig 1024 STREAM_CFG_LOCAL) okOracle
        (some 4)).1.stage = STAGE_NONE ∧
    noFCAfter false (LiStartConnection testState testInfo (testConfig 1024 STREAM_CFG_LOCAL)
        okOracle (some 4)).2.1 = true ∧
    (4 = 0 → completedCount (LiStartConnection testState testInfo
        (testConfig 1024 STREAM_CFG_LOCAL) okOracle (some 4)).2.1 = 0) :=
  interrupt_gates_fallible_stages testState testInfo (testConfig 1024 STREAM_CFG_LOCAL)
    okOracle 4 rfl (by omega)

/-- Claim C7 counterexample: the claim says every stage step is gated by the
Interrupt Signal (once set, no further stage begins) and that interrupt()
called before any stage causes a cancellation error.  Both fail on the
code: (a) a run entered with the interrupted flag already set succeeds
fully — start() resets the flag before the first stage — and (b) with an
interrupt arriving just before the video-init stage, the controller still
begins that stage: the trace contains `stageStarting VideoStreamInit`
right after the `interruptRequested` marker. -/
theorem interrupt_gating_counterexample :
    (LiStartConnection preInterruptedState testInfo
        (testConfig 1024 STREAM_CFG_LOCAL) okOracle none).2.2 = 0 ∧
    (LiStartConnection preInterruptedState testInfo
        (testConfig 1024 STREAM_CFG_LOCAL) okOracle none).1.stage =
      STAGE_INPUT_STREAM_START ∧
    (LiStartConnection testState testInfo (testConfig 1024 STREAM_CFG_LOCAL) okOracle
        (some 4)).2.1[9]? = some Event.interruptRequested ∧
    (LiStartConnection testState testInfo (testConfig 1024 STREAM_CFG_LOCAL) okOracle
        (some 4)).2.1[10]? = some (Event.stageStarting STAGE_VIDEO_STREAM_INIT) := by
  decide

end Moonlight
